import Mathlib

/-!
# ele674-lab-vehicule-app: a shallow embedding of the vehicle server

The C sources (`pwm.c`, `sonar.c`, `imu.c`, `main_nosonar.c`) are embedded as
Lean functions, one per C function, with the effects made explicit.

* C strings are lists of characters (the bytes before the terminating NUL).
* The I2C bus is a record holding the trace of actions performed so far and
  the outcomes of the `write` calls still to come; the GPIO output lines are
  a map from pin number to level; the echo line and the clock of a ranging
  cycle are inputs of the cycle.
* `int` values are integers; `uint8_t` and `uint16_t` values are reduced
  modulo 256 and 65536 where the C conversion does so.
* `float`/`double` values are the rational numbers they denote, decimal
  constants are taken at their written value, and arithmetic on them is
  exact. Comparisons and the truncating cast are as in C.
* libc functions whose full behaviour is outside the repository (`atoi`,
  `atof`, the `%f` conversion of `snprintf`) are parameters of the model;
  `libc_dec` is an instance for plain decimal numerals.
* One pass of a thread loop is a function on the module's globals: the body
  runs under the module's mutex, so it is taken as one step. Thread
  creation and joining are a counter next to the `thread_running` flag.
* `printf`/`fprintf` diagnostics on the server console and the delays
  (`usleep`) are not part of the state.
-/

namespace Vehicule

/-- A C string: the characters before the terminating NUL byte. -/
abbrev CString := List Char

/-! ## libc -/

/-- The libc conversions used by the command handlers.  `atof` gives the
value held by the `float` variable after `pwm = atof(token)`. -/
structure Libc where
  atoi : CString → Int
  atof : CString → ℚ
  /-- The text produced by the conversion `%.Nf` for a value (`N` first). -/
  printf_f : Nat → ℚ → CString

/-- Delimiter set `" \t\n"` of the `strtok` calls in `execute_pwm_command`. -/
def is_delim (c : Char) : Bool := c == ' ' || c == '\t' || c == '\n'

/-- The `strtok` loop run to exhaustion: `cur` is the token being scanned (in
reverse); the result lists the maximal runs of non-delimiter characters. -/
def strtok_aux : List Char → List Char → List CString
  | [], cur => if cur = [] then [] else [cur.reverse]
  | c :: cs, cur =>
    if is_delim c then
      (if cur = [] then strtok_aux cs [] else cur.reverse :: strtok_aux cs [])
    else strtok_aux cs (c :: cur)

/-- All tokens `strtok(cmd, " \t\n")`, `strtok(NULL, " \t\n")`, ... return. -/
def strtok_all (cmd : CString) : List CString := strtok_aux cmd []

/-! ## pwm.c -/

/-- Actions of the actuator module, in the order they happen. `set_pwm` marks
the entry of a `set_pwm` call, `reg_write` one two-byte `write` on the bus
(attempted, whether or not it succeeds), `sleep` a call of `sleep`. -/
inductive Event where
  | set_pwm (fd : Int) (channel : Int) (on_v off_v : Nat)
  | reg_write (fd : Int) (reg value : Nat)
  | sleep (seconds : Int)
  deriving DecidableEq, Repr

/-- The I2C bus as seen by the process: the actions so far, and the
outcomes of the coming `write` calls (`false`: short write; when the list
is exhausted every write succeeds). -/
structure Bus where
  trace : List Event
  pending : List Bool
  deriving DecidableEq, Repr

/-- `write_register(fd, reg, value)`; both `uint8_t` parameters are reduced
modulo 256 by the call. -/
def write_register (fd : Int) (reg : Int) (value : Nat) (b : Bus) : Int × Bus :=
  let b1 : Bus :=
    { trace := b.trace ++ [Event.reg_write fd (reg % 256).toNat (value % 256)],
      pending := b.pending.tail }
  if b.pending.head? = some false then (-1, b1) else (0, b1)

/-- `set_pwm(fd, channel, on, off)`; `on_v`, `off_v` stand for the `uint16_t`
parameters `on`, `off`. -/
def set_pwm (fd : Int) (channel : Int) (on_v off_v : Nat) (b : Bus) : Int × Bus :=
  let on16 := on_v % 65536
  let off16 := off_v % 65536
  let base : Int := 0x06 + 4 * channel
  let b0 : Bus := { b with trace := b.trace ++ [Event.set_pwm fd channel on16 off16] }
  let r1 := write_register fd base (on16 &&& 0xFF) b0
  if r1.1 < 0 then (-1, r1.2) else
  let r2 := write_register fd (base + 1) ((on16 >>> 8) &&& 0x0F) r1.2
  if r2.1 < 0 then (-1, r2.2) else
  let r3 := write_register fd (base + 2) (off16 &&& 0xFF) r2.2
  if r3.1 < 0 then (-1, r3.2) else
  let r4 := write_register fd (base + 3) ((off16 >>> 8) &&& 0x0F) r3.2
  if r4.1 < 0 then (-1, r4.2) else
  (0, r4.2)

/-- `sleep(duration)`. -/
def sleep (duration : Int) (b : Bus) : Bus :=
  { b with trace := b.trace ++ [Event.sleep duration] }

/-- The locals of `execute_pwm_command` set by its argument loop, with
their initial values. -/
structure PwmArgs where
  duration : Int := 0
  channel : Int := 0
  use_dual : Bool := false
  pwm1 : ℚ := 0
  pwm2 : ℚ := 0
  custom_channel : Bool := false
  deriving DecidableEq

/-- The argument loop of `execute_pwm_command` over `tokens[i..]`; `none` is
the early `return -1` for a flag without value. -/
def parse_args (L : Libc) : List CString → PwmArgs → Option PwmArgs
  | [], a => some a
  | tok :: rest, a =>
    if tok = ['-', 't'] then
      match rest with
      | [] => none
      | v :: rest2 => parse_args L rest2 { a with duration := L.atoi v }
    else if tok = ['-', 'c'] then
      match rest with
      | [] => none
      | v :: rest2 =>
        parse_args L rest2 { a with channel := L.atoi v, custom_channel := true }
    else
      match rest with
      | [] => some { a with pwm1 := L.atof tok }
      | nxt :: _ =>
        if nxt.head? ≠ some '-' then
          some { a with pwm1 := L.atof tok, pwm2 := L.atof nxt, use_dual := true }
        else some { a with pwm1 := L.atof tok }

/-- The conversion of a `double` to an integer type: truncation toward zero. -/
def c_trunc (x : ℚ) : Int := if 0 ≤ x then Rat.floor x else -Rat.floor (-x)

/-- The expression `(uint16_t)((pwm / 100.0) * max_count)` with
`max_count = 4095`. -/
def duty_count (pwm : ℚ) : Nat := (c_trunc ((pwm / 100) * 4095) % 65536).toNat

/-- The test `pwm1 < 0 || pwm1 > 100 || (use_dual && (pwm2 < 0 || pwm2 > 100))`. -/
def pwm_invalid (a : PwmArgs) : Bool :=
  decide (a.pwm1 < 0) || decide (a.pwm1 > 100) ||
    (a.use_dual && (decide (a.pwm2 < 0) || decide (a.pwm2 > 100)))

/-- `execute_pwm_command(i2c_fd, cmd_str)`: result code and bus afterwards. -/
def execute_pwm_command (L : Libc) (i2c_fd : Int) (cmd_str : CString) (b : Bus) :
    Int × Bus :=
  let tokens := (strtok_all cmd_str).take 10
  if tokens = [] then (-1, b) else
  match parse_args L tokens {} with
  | none => (-1, b)
  | some a =>
    if pwm_invalid a then (-1, b) else
    if a.use_dual && !a.custom_channel then
      let off1 := duty_count a.pwm1
      let off2 := duty_count a.pwm2
      let b1 := (set_pwm i2c_fd 0 0 off1 b).2
      let b2 := (set_pwm i2c_fd 1 0 off2 b1).2
      if a.duration > 0 then
        let b3 := sleep a.duration b2
        let b4 := (set_pwm i2c_fd 0 0 0 b3).2
        let b5 := (set_pwm i2c_fd 1 0 0 b4).2
        (0, b5)
      else (0, b2)
    else
      let off1 := duty_count a.pwm1
      let b1 := (set_pwm i2c_fd a.channel 0 off1 b).2
      if a.duration > 0 then
        let b2 := sleep a.duration b1
        let b3 := (set_pwm i2c_fd a.channel 0 0 b2).2
        (0, b3)
      else (0, b1)

/-! ### Reference libc for plain decimal numerals -/

/-- Value of a decimal digit character, if it is one. -/
def digit_val (c : Char) : Option Nat :=
  if '0' ≤ c ∧ c ≤ '9' then some (c.toNat - '0'.toNat) else none

/-- Leading decimal digits of a string read as a number, and what follows. -/
def read_digits : List Char → Nat → Nat × List Char
  | [], acc => (acc, [])
  | c :: cs, acc =>
    match digit_val c with
    | some d => read_digits cs (10 * acc + d)
    | none => (acc, c :: cs)

/-- `atoi` on `[+-]digits...`. -/
def atoi_dec (s : CString) : Int :=
  match s with
  | '-' :: cs => -((read_digits cs 0).1 : Int)
  | '+' :: cs => ((read_digits cs 0).1 : Int)
  | cs => ((read_digits cs 0).1 : Int)

/-- Unsigned part of `atof_dec`: `digits[.digits]`. -/
def atof_unsigned (s : CString) : ℚ :=
  let r := read_digits s 0
  match r.2 with
  | '.' :: fs =>
    let f := read_digits fs 0
    (r.1 : ℚ) + (f.1 : ℚ) / (10 : ℚ) ^ (fs.length - f.2.length)
  | _ => (r.1 : ℚ)

/-- `atof` on `[+-]digits[.digits]...`. -/
def atof_dec (s : CString) : ℚ :=
  match s with
  | '-' :: cs => -atof_unsigned cs
  | '+' :: cs => atof_unsigned cs
  | cs => atof_unsigned cs

/-- Rounding of a non-negative rational to the nearest natural number, a
tie going to the even one. -/
def round_half_even (x : ℚ) : Nat :=
  let f := (Rat.floor x).toNat
  let r := x - (f : ℚ)
  if r < 1 / 2 then f
  else if 1 / 2 < r then f + 1
  else if f % 2 = 0 then f else f + 1

/-- `%.Nf` on a rational: sign, integer part, and `N` decimals of the value
rounded at the `N`-th decimal. -/
def printf_f_dec (n : Nat) (q : ℚ) : CString :=
  let r := round_half_even (|q| * (10 : ℚ) ^ n)
  let ip := Nat.toDigits 10 (r / 10 ^ n)
  let fp := Nat.toDigits 10 (r % 10 ^ n)
  (if q < 0 then ['-'] else []) ++ ip ++
    (if n = 0 then [] else '.' :: (List.replicate (n - fp.length) '0' ++ fp))

/-- A libc whose conversions read and print plain decimal numerals. -/
def libc_dec : Libc :=
  { atoi := atoi_dec, atof := atof_dec, printf_f := printf_f_dec }

/-! ## sonar.c -/

/-- The record `sonar_data_t`. -/
structure sonar_data_t where
  distance_cm : ℚ
  valid : Int
  status : CString
  deriving DecidableEq

def SONAR_TRIG_PIN : Nat := 27
def SONAR_ECHO_PIN : Nat := 17
def SONAR_MAX_DISTANCE : ℚ := 400
def SONAR_MIN_DISTANCE : ℚ := 2
def LED_GREEN : Nat := 25
def LED_YELLOW : Nat := 24
def LED_RED : Nat := 23
def SONAR_THRESHOLD_HIGH : ℚ := 60
def SONAR_THRESHOLD_LOW : ℚ := 20

/-- Levels of the GPIO output lines, by pin number. -/
abbrev Gpio := Nat → Bool

/-- `gpio_write_high(pin)`: a write of `1 << pin` to the set register. -/
def gpio_write_high (pin : Nat) (g : Gpio) : Gpio := Function.update g pin true

/-- `gpio_write_low(pin)`: a write of `1 << pin` to the clear register. -/
def gpio_write_low (pin : Nat) (g : Gpio) : Gpio := Function.update g pin false

/-- What one ranging cycle meets outside the program: `echo n` is the level
the `n`-th `gpio_read(SONAR_ECHO_PIN)` of the cycle returns (from 0), and
`t_start`, `t_end` the values of the two `get_time_microseconds` calls. -/
structure EchoEnv where
  echo : Nat → Bool
  t_start : Int
  t_end : Int

/-- One echo wait of `measure_distance`:
`while (gpio_read(ECHO) == lvl) { timeout++; if (timeout > 30000) return -1.0f; usleep(1); }`
entered with the counter at `timeout` and `pos` reads done so far. The
result says whether the loop was left by the echo changing (`true`) or by
the timeout `return` (`false`), and how many reads have been done. -/
def wait_echo (echo : Nat → Bool) (lvl : Bool) (pos timeout : Nat) : Bool × Nat :=
  if echo pos = lvl then
    if timeout + 1 > 30000 then (false, pos + 1)
    else wait_echo echo lvl (pos + 1) (timeout + 1)
  else (true, pos + 1)
termination_by 30001 - timeout
decreasing_by omega

/-- Result of `measure_distance`: the returned `float`, the number of echo
reads done, and the output lines afterwards. -/
structure Measurement where
  distance : ℚ
  reads : Nat
  gpio : Gpio

/-- `measure_distance()`. -/
def measure_distance (env : EchoEnv) (g : Gpio) : Measurement :=
  let g1 := gpio_write_low SONAR_TRIG_PIN g
  let g2 := gpio_write_high SONAR_TRIG_PIN g1
  let g3 := gpio_write_low SONAR_TRIG_PIN g2
  let w1 := wait_echo env.echo false 0 0
  if w1.1 = false then { distance := -1, reads := w1.2, gpio := g3 } else
  let start_time := env.t_start
  let w2 := wait_echo env.echo true w1.2 0
  if w2.1 = false then { distance := -1, reads := w2.2, gpio := g3 } else
  let end_time := env.t_end
  let pulse_duration : Int := end_time - start_time
  let distance : ℚ := (pulse_duration : ℚ) * (1715 / 100000)
  { distance := distance, reads := w2.2, gpio := g3 }

/-- `control_leds(data)`. -/
def control_leds (data : sonar_data_t) (g : Gpio) : Gpio :=
  let g1 := gpio_write_low LED_GREEN g
  let g2 := gpio_write_low LED_YELLOW g1
  let g3 := gpio_write_low LED_RED g2
  if data.valid = 0 then g3
  else if data.distance_cm > SONAR_THRESHOLD_HIGH then gpio_write_high LED_GREEN g3
  else if data.distance_cm ≥ SONAR_THRESHOLD_LOW then gpio_write_high LED_YELLOW g3
  else gpio_write_high LED_RED g3

/-- `update_status(data)`. -/
def update_status (data : sonar_data_t) : sonar_data_t :=
  if data.valid = 0 then { data with status := "ERROR".toList }
  else if data.distance_cm > SONAR_THRESHOLD_HIGH then { data with status := "FAR".toList }
  else if data.distance_cm ≥ SONAR_THRESHOLD_LOW then { data with status := "MEDIUM".toList }
  else { data with status := "CLOSE".toList }

/-- The ranging module's globals: the shared snapshot and the output lines. -/
structure SonarState where
  current_data : sonar_data_t
  gpio : Gpio

/-- One pass through the body of the `while (thread_running)` loop of
`sonar_read_thread`. -/
def sonar_cycle (env : EchoEnv) (s : SonarState) : SonarState :=
  let m := measure_distance env s.gpio
  let distance := m.distance
  let d1 : sonar_data_t :=
    if distance > 0 ∧ distance < SONAR_MAX_DISTANCE then
      { s.current_data with distance_cm := distance, valid := 1 }
    else { s.current_data with valid := 0 }
  let d2 := update_status d1
  let g := control_leds d2 m.gpio
  { current_data := d2, gpio := g }

/-- `get_sonar_data(data)`: the copy handed to the reader. -/
def get_sonar_data (s : SonarState) : sonar_data_t := s.current_data

/-- `get_distance()`. -/
def get_distance (s : SonarState) : ℚ :=
  if s.current_data.valid ≠ 0 then s.current_data.distance_cm else -1

/-! ## Acquisition threads (imu.c, sonar.c) -/

/-- The thread bookkeeping of one sensor module: its `thread_running` flag
and the number of acquisition threads created and not yet joined. -/
structure Poller where
  thread_running : Int
  threads : Nat
  deriving DecidableEq, Repr

/-- `start_imu_thread()`; `create_ok` tells whether `pthread_create`
succeeds. -/
def start_imu_thread (create_ok : Bool) (p : Poller) : Int × Poller :=
  if p.thread_running ≠ 0 then (-1, p) else
  let p1 : Poller := { p with thread_running := 1 }
  if create_ok = false then (-1, { p1 with thread_running := 0 })
  else (0, { p1 with threads := p1.threads + 1 })

/-- `stop_imu_thread()`; `pthread_join` returns once the thread has ended. -/
def stop_imu_thread (p : Poller) : Poller :=
  if p.thread_running ≠ 0 then { thread_running := 0, threads := p.threads - 1 } else p

/-- `start_sonar_thread()`. -/
def start_sonar_thread (create_ok : Bool) (p : Poller) : Int × Poller :=
  if p.thread_running ≠ 0 then (-1, p) else
  let p1 : Poller := { p with thread_running := 1 }
  if create_ok = false then (-1, { p1 with thread_running := 0 })
  else (0, { p1 with threads := p1.threads + 1 })

/-- `stop_sonar_thread()`. -/
def stop_sonar_thread (p : Poller) : Poller :=
  if p.thread_running ≠ 0 then { thread_running := 0, threads := p.threads - 1 } else p

/-- The static initial values: flag clear, no thread. -/
def Poller.init : Poller := { thread_running := 0, threads := 0 }

/-- States of the orientation poller reachable from the initial one by
calls of `start_imu_thread` and `stop_imu_thread`. -/
inductive ImuReachable : Poller → Prop where
  | init : ImuReachable Poller.init
  | start (ok : Bool) (p : Poller) : ImuReachable p → ImuReachable (start_imu_thread ok p).2
  | stop (p : Poller) : ImuReachable p → ImuReachable (stop_imu_thread p)

/-- States of the ranging poller reachable from the initial one by calls of
`start_sonar_thread` and `stop_sonar_thread`. -/
inductive SonarReachable : Poller → Prop where
  | init : SonarReachable Poller.init
  | start (ok : Bool) (p : Poller) :
      SonarReachable p → SonarReachable (start_sonar_thread ok p).2
  | stop (p : Poller) : SonarReachable p → SonarReachable (stop_sonar_thread p)

/-! ## imu.c -/

/-- The record `imu_data_t`. -/
structure imu_data_t where
  accel_x : ℚ
  accel_y : ℚ
  accel_z : ℚ
  gyro_x : ℚ
  gyro_y : ℚ
  gyro_z : ℚ
  mag_x : ℚ
  mag_y : ℚ
  mag_z : ℚ
  temp : ℚ
  roll : ℚ
  pitch : ℚ
  yaw : ℚ
  deriving DecidableEq

/-- The test `*end == ' ' || *end == '\t' || *end == '\n'`. -/
def is_trailing_ws (c : Char) : Bool := c == ' ' || c == '\t' || c == '\n'

/-- The stripping loop of `execute_imu_command`, on the string read from its
last character backwards: the head of the list is `*end`, and `end > cmd_str`
holds as long as characters remain behind it. Each pass writes the NUL over
`*end` and moves `end` down. -/
def strip_loop : List Char → List Char
  | [] => []
  | c :: rest => if rest ≠ [] ∧ is_trailing_ws c = true then strip_loop rest else c :: rest

/-- The command text after the lines
`char *end = cmd_str + strlen(cmd_str) - 1; while (end > cmd_str && ...) {...}`. -/
def strip_trailing (cmd_str : CString) : CString := (strip_loop cmd_str.reverse).reverse

/-- `snprintf(response, response_size, ...)` producing `text`: at most
`response_size - 1` characters are stored, none when the size is 0. -/
def snprintf (response : CString) (response_size : Nat) (text : CString) : CString :=
  if response_size = 0 then response else text.take (response_size - 1)

/-- The three bytes `EC A7 B8` that follow each `%.1f` of the `raw` and
`orientation` format strings in `imu.c`. -/
def angle_unit : CString := [Char.ofNat 0xEC, Char.ofNat 0xA7, Char.ofNat 0xB8]

/-- Text of the `read`/`get` report. -/
def imu_report (L : Libc) (d : imu_data_t) : CString :=
  "\x7b\"accel\":[".toList ++ L.printf_f 3 d.accel_x ++ ",".toList ++
    L.printf_f 3 d.accel_y ++ ",".toList ++ L.printf_f 3 d.accel_z ++
  "],\"gyro\":[".toList ++ L.printf_f 3 d.gyro_x ++ ",".toList ++
    L.printf_f 3 d.gyro_y ++ ",".toList ++ L.printf_f 3 d.gyro_z ++
  "],\"mag\":[".toList ++ L.printf_f 3 d.mag_x ++ ",".toList ++
    L.printf_f 3 d.mag_y ++ ",".toList ++ L.printf_f 3 d.mag_z ++
  "],\"temp\":".toList ++ L.printf_f 1 d.temp ++
  ",\"roll\":".toList ++ L.printf_f 1 d.roll ++
  ",\"pitch\":".toList ++ L.printf_f 1 d.pitch ++
  ",\"yaw\":".toList ++ L.printf_f 1 d.yaw ++ "\x7d\n".toList

/-- Text of the `raw` reply. -/
def imu_raw (L : Libc) (d : imu_data_t) : CString :=
  "Accel: ".toList ++ L.printf_f 3 d.accel_x ++ " ".toList ++
    L.printf_f 3 d.accel_y ++ " ".toList ++ L.printf_f 3 d.accel_z ++
  " | Gyro: ".toList ++ L.printf_f 3 d.gyro_x ++ " ".toList ++
    L.printf_f 3 d.gyro_y ++ " ".toList ++ L.printf_f 3 d.gyro_z ++
  " | Mag: ".toList ++ L.printf_f 3 d.mag_x ++ " ".toList ++
    L.printf_f 3 d.mag_y ++ " ".toList ++ L.printf_f 3 d.mag_z ++
  " | Temp: ".toList ++ L.printf_f 1 d.temp ++ angle_unit ++ "C\n".toList

/-- Text of the `orientation` reply. -/
def imu_orientation (L : Libc) (d : imu_data_t) : CString :=
  "Roll: ".toList ++ L.printf_f 1 d.roll ++ angle_unit ++
  " | Pitch: ".toList ++ L.printf_f 1 d.pitch ++ angle_unit ++
  " | Yaw: ".toList ++ L.printf_f 1 d.yaw ++ angle_unit ++ "\n".toList

/-- Text of the reply to an unknown sub-command. -/
def imu_unknown (cmd : CString) : CString :=
  "ERROR: Unknown IMU command '".toList ++ cmd ++ "'\n".toList

/-- `execute_imu_command(cmd_str, response, response_size)`, with
`current_data` the snapshot `get_imu_data` copies out. A pointer argument is
`none` when NULL; `response` holds the buffer's text before the call. The
result is the return code and the buffer's text afterwards. -/
def execute_imu_command (L : Libc) (current_data : imu_data_t)
    (cmd_str : Option CString) (response : Option CString) (response_size : Nat) :
    Int × Option CString :=
  match cmd_str, response with
  | none, _ => (-1, response)
  | _, none => (-1, response)
  | some cmd0, some resp =>
    let cmd := strip_trailing cmd0
    let data := current_data
    if cmd = "read".toList ∨ cmd = "get".toList ∨ cmd = "".toList then
      (0, some (snprintf resp response_size (imu_report L data)))
    else if cmd = "raw".toList then
      (0, some (snprintf resp response_size (imu_raw L data)))
    else if cmd = "orientation".toList then
      (0, some (snprintf resp response_size (imu_orientation L data)))
    else
      (-1, some (snprintf resp response_size (imu_unknown cmd)))

/-! ## lsm9ds1.c and the orientation thread of imu.c -/

/-- The record `vector3_t`. -/
structure vector3_t where
  x : ℚ
  y : ℚ
  z : ℚ
  deriving DecidableEq

/-- The record `lsm9ds1_t`. -/
structure lsm9ds1_t where
  fd_xg : Int
  fd_mag : Int
  accel_mg_lsb : ℚ
  gyro_dps_digit : ℚ
  mag_gauss_lsb : ℚ
  accel_raw : Int × Int × Int
  gyro_raw : Int × Int × Int
  mag_raw : Int × Int × Int
  temp_raw : Int
  acceleration : vector3_t
  gyro : vector3_t
  magnetic : vector3_t
  temperature : ℚ
  deriving DecidableEq

/-- What the four `i2c_read_block` calls of one `lsm9ds1_read` meet on the
bus, in the order of the calls: the bytes the transfer delivers, or `none`
when the `write` of the register address or the `read` fails. -/
structure ImuBlocks where
  accel : Option (List Nat)
  gyro : Option (List Nat)
  mag : Option (List Nat)
  temp : Option (List Nat)
  deriving DecidableEq

/-- `i2c_read_block(fd, reg, buffer, len)` meeting `block`: the buffer
filled, or `none` for the result -1 (failed transfer or short read). -/
def i2c_read_block (block : Option (List Nat)) (len : Nat) : Option (List Nat) :=
  match block with
  | none => none
  | some bytes => if bytes.length = len then some (bytes.map (fun v => v % 256)) else none

/-- The expression `(int16_t)((hi << 8) | lo)` on two bytes. -/
def to_int16 (hi lo : Nat) : Int :=
  let v := (hi <<< 8) ||| lo
  if v % 65536 < 32768 then ((v % 65536 : Nat) : Int) else ((v % 65536 : Nat) : Int) - 65536

/-- The three `int16_t` values of a six-byte block. -/
def raw3 (buffer : List Nat) : Int × Int × Int :=
  (to_int16 (buffer.getD 1 0) (buffer.getD 0 0), to_int16 (buffer.getD 3 0) (buffer.getD 2 0),
    to_int16 (buffer.getD 5 0) (buffer.getD 4 0))

def SENSORS_GRAVITY_STANDARD : ℚ := 980665 / 100000
def SENSORS_DPS_TO_RADS : ℚ := 17453293 / 1000000000

/-- `lsm9ds1_read(lsm)`: the returned `bool` and the record afterwards. -/
def lsm9ds1_read (blocks : ImuBlocks) (lsm : lsm9ds1_t) : Bool × lsm9ds1_t :=
  match i2c_read_block blocks.accel 6 with
  | none => (false, lsm)
  | some buffer =>
    let a := raw3 buffer
    let lsm1 : lsm9ds1_t :=
      { lsm with
        accel_raw := a,
        acceleration :=
          { x := ((a.1 : ℚ) * lsm.accel_mg_lsb / 1000) * SENSORS_GRAVITY_STANDARD,
            y := ((a.2.1 : ℚ) * lsm.accel_mg_lsb / 1000) * SENSORS_GRAVITY_STANDARD,
            z := ((a.2.2 : ℚ) * lsm.accel_mg_lsb / 1000) * SENSORS_GRAVITY_STANDARD } }
    match i2c_read_block blocks.gyro 6 with
    | none => (false, lsm1)
    | some buffer =>
      let g := raw3 buffer
      let lsm2 : lsm9ds1_t :=
        { lsm1 with
          gyro_raw := g,
          gyro :=
            { x := (g.1 : ℚ) * lsm1.gyro_dps_digit * SENSORS_DPS_TO_RADS,
              y := (g.2.1 : ℚ) * lsm1.gyro_dps_digit * SENSORS_DPS_TO_RADS,
              z := (g.2.2 : ℚ) * lsm1.gyro_dps_digit * SENSORS_DPS_TO_RADS } }
      match i2c_read_block blocks.mag 6 with
      | none => (false, lsm2)
      | some buffer =>
        let m := raw3 buffer
        let lsm3 : lsm9ds1_t :=
          { lsm2 with
            mag_raw := m,
            magnetic :=
              { x := (m.1 : ℚ) * lsm2.mag_gauss_lsb * 100,
                y := (m.2.1 : ℚ) * lsm2.mag_gauss_lsb * 100,
                z := (m.2.2 : ℚ) * lsm2.mag_gauss_lsb * 100 } }
        match i2c_read_block blocks.temp 2 with
        | none => (false, lsm3)
        | some temp_buffer =>
          let t := to_int16 (temp_buffer.getD 1 0) (temp_buffer.getD 0 0)
          (true, { lsm3 with temp_raw := t, temperature := 21 + (t : ℚ) / 8 })

/-- The libm functions and constant used by `calculate_orientation`. -/
structure Libm where
  atan2 : ℚ → ℚ → ℚ
  sqrt : ℚ → ℚ
  M_PI : ℚ

/-- `calculate_orientation(data)`. -/
def calculate_orientation (M : Libm) (data : imu_data_t) : imu_data_t :=
  let roll := M.atan2 data.accel_y (M.sqrt (data.accel_x * data.accel_x +
    data.accel_z * data.accel_z))
  let pitch := M.atan2 (-data.accel_x) (M.sqrt (data.accel_y * data.accel_y +
    data.accel_z * data.accel_z))
  let yaw := M.atan2 data.mag_y data.mag_x
  { data with
    roll := roll * (180 / M.M_PI),
    pitch := pitch * (180 / M.M_PI),
    yaw := yaw * (180 / M.M_PI) }

/-- The orientation module's globals `sensor` and `current_data`. -/
structure ImuState where
  sensor : lsm9ds1_t
  current_data : imu_data_t
  deriving DecidableEq

/-- One pass through the body of the `while (thread_running)` loop of
`imu_read_thread`. -/
def imu_cycle (M : Libm) (blocks : ImuBlocks) (s : ImuState) : ImuState :=
  let r := lsm9ds1_read blocks s.sensor
  if r.1 = true then
    let sensor := r.2
    let d : imu_data_t :=
      { s.current_data with
        accel_x := sensor.acceleration.x,
        accel_y := sensor.acceleration.y,
        accel_z := sensor.acceleration.z,
        gyro_x := sensor.gyro.x,
        gyro_y := sensor.gyro.y,
        gyro_z := sensor.gyro.z,
        mag_x := sensor.magnetic.x,
        mag_y := sensor.magnetic.y,
        mag_z := sensor.magnetic.z,
        temp := sensor.temperature }
    { sensor := sensor, current_data := calculate_orientation M d }
  else { s with sensor := r.2 }

/-- `get_imu_data(data)`: the copy handed to the reader. -/
def get_imu_data (s : ImuState) : imu_data_t := s.current_data

/-! ## main_nosonar.c -/

/-- The command handlers of the repository, with the text handed over. -/
inductive Delegate where
  | imu (cmd : CString)
  | pwm (cmd : CString)
  | sonar (cmd : CString)
  deriving DecidableEq

/-- What `handle_client` did: the data of each `write` to the client, the
bus afterwards, and the command handler it called. -/
structure ClientOutcome where
  writes : List CString
  bus : Bus
  called : Option Delegate
  deriving DecidableEq

/-- The read loop of `handle_client` on the bytes the client sends: the
bytes before the first newline, 255 at most. -/
def read_line (input : List Char) : List Char :=
  (input.takeWhile (fun c => c != '\n')).take 255

/-- The C string held by a byte buffer: the bytes before the first NUL. -/
def c_str (bytes : List Char) : CString := bytes.takeWhile (fun c => c != Char.ofNat 0)

/-- The loop `while (*p == ' ') p++;`. -/
def skip_spaces (s : CString) : CString := s.dropWhile (fun c => c == ' ')

/-- `handle_client(client_fd, i2c_fd)`, with `input` the bytes the client
sends, `current_data` the orientation snapshot and `response0` the initial
content of the local `response` buffer. -/
def handle_client (L : Libc) (current_data : imu_data_t) (response0 : CString)
    (input : List Char) (i2c_fd : Int) (b : Bus) : ClientOutcome :=
  let line := read_line input
  let total := line.length
  let buffer := c_str line
  if total > 0 then
    if buffer.take 3 = "IMU".toList then
      let imu_cmd := skip_spaces (buffer.drop 3)
      let r := execute_imu_command L current_data (some imu_cmd) (some response0) 1024
      { writes := [c_str (r.2.getD [])], bus := b, called := some (Delegate.imu imu_cmd) }
    else if buffer.take 3 = "PWM".toList then
      let pwm_cmd := skip_spaces (buffer.drop 3)
      let r := execute_pwm_command L i2c_fd pwm_cmd b
      if r.1 = 0 then
        { writes := ["OK\n".toList], bus := r.2, called := some (Delegate.pwm pwm_cmd) }
      else
        { writes := ["ERROR\n".toList], bus := r.2, called := some (Delegate.pwm pwm_cmd) }
    else
      let r := execute_pwm_command L i2c_fd buffer b
      if r.1 = 0 then
        { writes := ["OK\n".toList], bus := r.2, called := some (Delegate.pwm buffer) }
      else
        { writes := ["ERROR\n".toList], bus := r.2, called := some (Delegate.pwm buffer) }
  else { writes := [], bus := b, called := none }

/-! ## Vocabulary of the statements -/

/-- A flag of the actuator grammar together with its value token. -/
inductive FlagArg where
  | t (value : CString)
  | c (value : CString)
  deriving DecidableEq

/-- The two tokens a flag occupies in the command. -/
def FlagArg.tokens : FlagArg → List CString
  | FlagArg.t v => [['-', 't'], v]
  | FlagArg.c v => [['-', 'c'], v]

/-- The tokens of a sequence of flags. -/
def flag_tokens : List FlagArg → List CString
  | [] => []
  | f :: fs => f.tokens ++ flag_tokens fs

/-- The effect of one flag on the locals of `execute_pwm_command`. -/
def FlagArg.apply (L : Libc) : FlagArg → PwmArgs → PwmArgs
  | FlagArg.t v, a => { a with duration := L.atoi v }
  | FlagArg.c v, a => { a with channel := L.atoi v, custom_channel := true }

/-- The effect of a sequence of flags, first to last. -/
def apply_flags (L : Libc) : List FlagArg → PwmArgs → PwmArgs
  | [], a => a
  | f :: fs, a => apply_flags L fs (f.apply L a)

/-- The `set_pwm` calls of a trace in order: channel, `on`, `off`. -/
def pwm_calls : List Event → List (Int × Nat × Nat)
  | [] => []
  | Event.set_pwm _ ch on_v off_v :: es => (ch, on_v, off_v) :: pwm_calls es
  | Event.reg_write _ _ _ :: es => pwm_calls es
  | Event.sleep _ :: es => pwm_calls es

/-- The `off` arguments of the `set_pwm` calls of a trace, in order. -/
def off_counts (t : List Event) : List Nat := (pwm_calls t).map (fun c => c.2.2)

/-- The count the specification asks for: `round(pct/100 * 4095)`. -/
def spec_count (pct : ℚ) : Int := round (pct / 100 * 4095)

/-- The `set_pwm` calls an accepted command makes, from the parsed locals. -/
def planned_calls (a : PwmArgs) : List (Int × Nat × Nat) :=
  if a.use_dual && !a.custom_channel then
    [(0, 0, duty_count a.pwm1 % 65536), (1, 0, duty_count a.pwm2 % 65536)] ++
      (if a.duration > 0 then [(0, 0, 0), (1, 0, 0)] else [])
  else
    [(a.channel, 0, duty_count a.pwm1 % 65536)] ++
      (if a.duration > 0 then [(a.channel, 0, 0)] else [])

/-- The locals after the duty-value branch of the argument loop has read
`d1` with the tokens `rest` behind it. -/
def duty_args (L : Libc) (d1 : CString) (rest : List CString) (a : PwmArgs) : PwmArgs :=
  match rest with
  | [] => { a with pwm1 := L.atof d1 }
  | nxt :: _ =>
    if nxt.head? ≠ some '-' then
      { a with pwm1 := L.atof d1, pwm2 := L.atof nxt, use_dual := true }
    else { a with pwm1 := L.atof d1 }

/-- The second duty token of a command: the token right after the first
duty value, when it does not start with `-`. -/
def second_value : List CString → Option CString
  | [] => none
  | d2 :: _ => if d2.head? ≠ some '-' then some d2 else none

/-- How many of the three proximity LEDs are on. -/
def leds_on (g : Gpio) : Nat :=
  ([LED_GREEN, LED_YELLOW, LED_RED].filter (fun pin => g pin)).length

/-- The distance `measure_distance` computes from the two clock readings
when neither wait times out: `pulse_duration * 0.01715`. -/
def pulse_distance (env : EchoEnv) : ℚ := ((env.t_end - env.t_start : Int) : ℚ) * (1715 / 100000)

/-- An echo line that never rises. -/
def env_silent : EchoEnv := { echo := fun _ => false, t_start := 0, t_end := 0 }

/-- An echo line that is high at the first read and low at the second, with
both clock readings at `t0` and `t1`. -/
def env_pulse (t0 t1 : Int) : EchoEnv :=
  { echo := fun n => decide (n = 0), t_start := t0, t_end := t1 }

/-- A ranging state holding a valid snapshot at 35 cm with the yellow LED on. -/
def sonar_state_35 : SonarState :=
  { current_data := ⟨35, 1, "MEDIUM".toList⟩, gpio := fun pin => decide (pin = 24) }

/-- The sub-commands `execute_imu_command` knows. -/
def imu_known : List CString :=
  ["read".toList, "get".toList, "".toList, "raw".toList, "orientation".toList]

/-- A snapshot with every field at 0. -/
def imu_zero : imu_data_t := ⟨0, 0, 0, 0, 0, 0, 0, 0, 0, 0, 0, 0, 0⟩

/-- The register writes of a trace in order: register address and value. -/
def reg_writes : List Event → List (Nat × Nat)
  | [] => []
  | Event.reg_write _ reg v :: es => (reg, v) :: reg_writes es
  | _ :: es => reg_writes es

/-- The degree sign in UTF-8: the bytes `C2 B0`. -/
def degree_sign : CString := [Char.ofNat 0xC2, Char.ofNat 0xB0]

/-- The reply the specification gives for level attitude:
"Roll: 0.0° | Pitch: 0.0° | Yaw: 0.0°\n". -/
def spec_level_reply : CString :=
  "Roll: 0.0".toList ++ degree_sign ++ " | Pitch: 0.0".toList ++ degree_sign ++
    " | Yaw: 0.0".toList ++ degree_sign ++ "\n".toList

/-- A libm instance for runs in which no angle is computed: every function
returns 0. -/
def libm_null : Libm := { atan2 := fun _ _ => 0, sqrt := fun _ => 0, M_PI := 355 / 113 }

/-- A sensor record with 2 g, 245 dps and 4 gauss scale factors and no
reading yet. -/
def sensor_idle : lsm9ds1_t :=
  { fd_xg := 4, fd_mag := 5, accel_mg_lsb := 61 / 1000, gyro_dps_digit := 875 / 100000,
    mag_gauss_lsb := 1 / 6842, accel_raw := (0, 0, 0), gyro_raw := (0, 0, 0),
    mag_raw := (0, 0, 0), temp_raw := 0, acceleration := ⟨0, 0, 0⟩, gyro := ⟨0, 0, 0⟩,
    magnetic := ⟨0, 0, 0⟩, temperature := 0 }

/-- A snapshot holding readings of an earlier cycle. -/
def imu_earlier : imu_data_t := ⟨1, 2, 9, 0, 0, 0, 30, 40, 0, 25, 12, -6, 53⟩

/-- A bus on which the first block read of the sensor fails. -/
def blocks_failing : ImuBlocks := { accel := none, gyro := none, mag := none, temp := none }

/-- The reply of the `orientation` sub-command when the three angles are
printed as "0.0": each is followed by the bytes `EC A7 B8` of the source. -/
def level_reply : CString :=
  "Roll: 0.0".toList ++ angle_unit ++ " | Pitch: 0.0".toList ++ angle_unit ++
    " | Yaw: 0.0".toList ++ angle_unit ++ "\n".toList

/-- Trailing-whitespace stripping as the specification words it: every
trailing whitespace character is removed, whitespace being the three
characters the code tests (blank, tab, newline). -/
def spec_strip_trailing (cmd : CString) : CString :=
  (cmd.reverse.dropWhile is_trailing_ws).reverse

/-- The `raw` reply for the all-zero snapshot as the decimal libc prints it. -/
def zero_raw : CString :=
  ("Accel: 0.000 0.000 0.000 | Gyro: 0.000 0.000 0.000 | " ++
    "Mag: 0.000 0.000 0.000 | Temp: 0.0").toList ++ angle_unit ++ "C\n".toList

/-- The report for the all-zero snapshot as the decimal libc prints it. -/
def zero_report : CString :=
  ("\x7b\"accel\":[0.000,0.000,0.000],\"gyro\":[0.000,0.000,0.000]," ++
    "\"mag\":[0.000,0.000,0.000],\"temp\":0.0," ++
    "\"roll\":0.0,\"pitch\":0.0,\"yaw\":0.0\x7d\n").toList

/-! ## Lemmas on the actuator module -/

theorem parse_args_flags (L : Libc) (fs : List FlagArg) (ts : List CString) (a : PwmArgs) :
    parse_args L (flag_tokens fs ++ ts) a = parse_args L ts (apply_flags L fs a) := by
  induction fs generalizing a with
  | nil => rfl
  | cons f fs ih =>
    cases f with
    | t v => simp [flag_tokens, FlagArg.tokens, parse_args, apply_flags, FlagArg.apply, ih]
    | c v => simp [flag_tokens, FlagArg.tokens, parse_args, apply_flags, FlagArg.apply, ih]

theorem parse_args_duty (L : Libc) (d1 : CString) (rest : List CString) (a : PwmArgs)
    (ht : d1 ≠ ['-', 't']) (hc : d1 ≠ ['-', 'c']) :
    parse_args L (d1 :: rest) a =
      match rest with
      | [] => some { a with pwm1 := L.atof d1 }
      | nxt :: _ =>
        if nxt.head? ≠ some '-' then
          some { a with pwm1 := L.atof d1, pwm2 := L.atof nxt, use_dual := true }
        else some { a with pwm1 := L.atof d1 } := by
  cases rest <;> simp [parse_args, ht, hc]

theorem apply_flags_pwm (L : Libc) (fs : List FlagArg) (a : PwmArgs) :
    (apply_flags L fs a).pwm1 = a.pwm1 ∧ (apply_flags L fs a).pwm2 = a.pwm2 ∧
      (apply_flags L fs a).use_dual = a.use_dual := by
  induction fs generalizing a with
  | nil => simp [apply_flags]
  | cons f fs ih => cases f <;> simp [apply_flags, FlagArg.apply, ih]

theorem execute_pwm_command_invalid (L : Libc) (fd : Int) (cmd : CString) (b : Bus)
    (a : PwmArgs) (hp : parse_args L ((strtok_all cmd).take 10) {} = some a)
    (hbad : pwm_invalid a = true) : execute_pwm_command L fd cmd b = (-1, b) := by
  unfold execute_pwm_command
  simp only [hp, hbad]
  split <;> rfl

theorem pwm_calls_append (t1 t2 : List Event) :
    pwm_calls (t1 ++ t2) = pwm_calls t1 ++ pwm_calls t2 := by
  induction t1 with
  | nil => rfl
  | cons e t ih => cases e <;> simp [pwm_calls, ih]

theorem write_register_bus (fd reg : Int) (v : Nat) (b : Bus) :
    (write_register fd reg v b).2 =
      { trace := b.trace ++ [Event.reg_write fd (reg % 256).toNat (v % 256)],
        pending := b.pending.tail } := by
  unfold write_register
  split_ifs <;> rfl

theorem pwm_calls_write_register (fd reg : Int) (v : Nat) (b : Bus) :
    pwm_calls (write_register fd reg v b).2.trace = pwm_calls b.trace := by
  rw [write_register_bus]
  simp [pwm_calls_append, pwm_calls]

theorem pwm_calls_set_pwm (fd ch : Int) (on_v off_v : Nat) (b : Bus) :
    pwm_calls (set_pwm fd ch on_v off_v b).2.trace =
      pwm_calls b.trace ++ [(ch, on_v % 65536, off_v % 65536)] := by
  unfold set_pwm
  simp only []
  split_ifs <;> simp only [pwm_calls_write_register] <;> simp [pwm_calls_append, pwm_calls]

theorem pwm_calls_sleep (d : Int) (b : Bus) :
    pwm_calls (sleep d b).trace = pwm_calls b.trace := by
  simp [sleep, pwm_calls_append, pwm_calls]

theorem execute_pwm_command_valid (L : Libc) (fd : Int) (cmd : CString) (b : Bus)
    (a : PwmArgs) (hne : (strtok_all cmd).take 10 ≠ [])
    (hp : parse_args L ((strtok_all cmd).take 10) {} = some a)
    (hok : pwm_invalid a = false) :
    (execute_pwm_command L fd cmd b).1 = 0 ∧
      pwm_calls (execute_pwm_command L fd cmd b).2.trace =
        pwm_calls b.trace ++ planned_calls a := by
  unfold execute_pwm_command planned_calls
  simp only [hp, hok, hne, if_false, Bool.false_eq_true]
  split_ifs <;> simp [pwm_calls_set_pwm, pwm_calls_sleep]

theorem c_trunc_of_nonneg (x : ℚ) (h : 0 ≤ x) : c_trunc x = ⌊x⌋ := by
  simp [c_trunc, h]; rfl

theorem duty_count_eq_floor (p : ℚ) (h0 : 0 ≤ p) (h1 : p ≤ 100) :
    (duty_count p : Int) = ⌊p / 100 * 4095⌋ ∧ duty_count p ≤ 4095 := by
  have hx0 : (0 : ℚ) ≤ p / 100 * 4095 := by positivity
  have hx1 : p / 100 * 4095 ≤ 4095 := by linarith
  have hf0 : 0 ≤ ⌊p / 100 * 4095⌋ := Int.floor_nonneg.mpr hx0
  have hf1 : ⌊p / 100 * 4095⌋ ≤ 4095 := by
    have h := Int.floor_le_floor hx1
    have h4 : ⌊(4095 : ℚ)⌋ = 4095 := by norm_num
    omega
  unfold duty_count
  rw [c_trunc_of_nonneg _ hx0]
  omega

theorem parse_args_shape (L : Libc) (fs : List FlagArg) (d1 : CString)
    (rest : List CString) (a : PwmArgs) (ht : d1 ≠ ['-', 't']) (hc : d1 ≠ ['-', 'c']) :
    parse_args L (flag_tokens fs ++ d1 :: rest) a =
      some (duty_args L d1 rest (apply_flags L fs a)) := by
  rw [parse_args_flags, parse_args_duty L d1 rest _ ht hc]
  unfold duty_args
  cases rest with
  | nil => rfl
  | cons nxt r => simp only []; split_ifs <;> rfl

theorem pwm_invalid_eq_false_iff (a : PwmArgs) :
    pwm_invalid a = false ↔
      (0 ≤ a.pwm1 ∧ a.pwm1 ≤ 100 ∧ (a.use_dual = true → 0 ≤ a.pwm2 ∧ a.pwm2 ≤ 100)) := by
  unfold pwm_invalid
  cases hd : a.use_dual <;> simp [not_lt] <;> tauto

theorem planned_calls_le (a : PwmArgs) (hok : pwm_invalid a = false) :
    ∀ c ∈ planned_calls a, c.2.2 ≤ 4095 := by
  obtain ⟨h0, h1, h2⟩ := (pwm_invalid_eq_false_iff a).mp hok
  have e1 := (duty_count_eq_floor a.pwm1 h0 h1).2
  intro c hcm
  unfold planned_calls at hcm
  split_ifs at hcm with hd ht
  all_goals simp at hcm
  · have hdual : a.use_dual = true := by simp_all
    have e2 := (duty_count_eq_floor a.pwm2 (h2 hdual).1 (h2 hdual).2).2
    rcases hcm with h | h | h | h <;> subst h <;> simp <;> omega
  · have hdual : a.use_dual = true := by simp_all
    have e2 := (duty_count_eq_floor a.pwm2 (h2 hdual).1 (h2 hdual).2).2
    rcases hcm with h | h <;> subst h <;> simp <;> omega
  · rcases hcm with h | h <;> subst h <;> simp <;> omega
  · subst hcm; simp; omega

/-! ## The claims on the actuator module -/

theorem atof_dec_25 : libc_dec.atof "25".toList = 25 := by
  simp [libc_dec, atof_dec, atof_unsigned, read_digits, digit_val]

theorem atof_dec_75 : libc_dec.atof "75".toList = 75 := by
  simp [libc_dec, atof_dec, atof_unsigned, read_digits, digit_val]

theorem duty_count_25 : duty_count 25 = 1023 := by
  have h := (duty_count_eq_floor 25 (by norm_num) (by norm_num)).1
  have e : ⌊(25 : ℚ) / 100 * 4095⌋ = 1023 := by
    rw [Int.floor_eq_iff]; norm_num
  omega

theorem duty_count_75 : duty_count 75 = 3071 := by
  have h := (duty_count_eq_floor 75 (by norm_num) (by norm_num)).1
  have e : ⌊(75 : ℚ) / 100 * 4095⌋ = 3071 := by
    rw [Int.floor_eq_iff]; norm_num
  omega

/-- C2 fails at 25 %: the command `25` is accepted and the count passed to
`set_pwm` is 1023, while `round(25/100 * 4095) = round(1023.75) = 1024`. -/
theorem duty_count_is_not_rounded :
    libc_dec.atof "25".toList = 25 ∧
      (execute_pwm_command libc_dec 3 "25".toList ⟨[], []⟩).1 = 0 ∧
      off_counts (execute_pwm_command libc_dec 3 "25".toList ⟨[], []⟩).2.trace = [1023] ∧
      spec_count 25 = 1024 := by
  have hp : parse_args libc_dec ((strtok_all "25".toList).take 10) {} =
      some { pwm1 := 25 } := by
    have := parse_args_shape libc_dec [] "25".toList [] {} (by decide) (by decide)
    simpa [flag_tokens, duty_args, apply_flags, atof_dec_25] using this
  have hv := execute_pwm_command_valid libc_dec 3 "25".toList ⟨[], []⟩ _
    (by decide) hp (by simp [pwm_invalid]; norm_num)
  refine ⟨atof_dec_25, hv.1, ?_, ?_⟩
  · rw [off_counts, hv.2]
    simp [planned_calls, pwm_calls, duty_count_25]
  · rw [spec_count, round_eq, Int.floor_eq_iff]; norm_num

/-- C2 as amended: for duty values in [0,100] the command is accepted and
the counts passed to `set_pwm` are the values `pct/100 * 4095` truncated
(rounded down), not rounded to nearest: with two values and no `-c` flag
the calls pass `⌊p1/100*4095⌋` then `⌊p2/100*4095⌋`, otherwise one call
passes `⌊p1/100*4095⌋`; a positive hold duration adds the calls that reset
the same channels to 0. -/
theorem execute_pwm_command_counts_truncated (L : Libc) (fd : Int) (b : Bus)
    (cmd : CString) (fs : List FlagArg) (d1 : CString) (rest : List CString)
    (hshape : (strtok_all cmd).take 10 = flag_tokens fs ++ d1 :: rest)
    (ht : d1 ≠ ['-', 't']) (hc : d1 ≠ ['-', 'c'])
    (h1 : 0 ≤ L.atof d1 ∧ L.atof d1 ≤ 100)
    (h2 : ∀ d2, second_value rest = some d2 → 0 ≤ L.atof d2 ∧ L.atof d2 ≤ 100) :
    (execute_pwm_command L fd cmd b).1 = 0 ∧
      off_counts (execute_pwm_command L fd cmd b).2.trace =
        off_counts b.trace ++
          (match second_value rest, (apply_flags L fs {}).custom_channel with
            | some d2, false =>
              [⌊L.atof d1 / 100 * 4095⌋.toNat, ⌊L.atof d2 / 100 * 4095⌋.toNat] ++
                (if (apply_flags L fs {}).duration > 0 then [0, 0] else [])
            | _, _ =>
              [⌊L.atof d1 / 100 * 4095⌋.toNat] ++
                (if (apply_flags L fs {}).duration > 0 then [0] else [])) := by
  have hp := parse_args_shape L fs d1 rest {} ht hc
  rw [← hshape] at hp
  have hne : (strtok_all cmd).take 10 ≠ [] := by rw [hshape]; simp
  obtain ⟨-, -, e3⟩ := apply_flags_pwm L fs {}
  have c1 := duty_count_eq_floor (L.atof d1) h1.1 h1.2
  have k1 : duty_count (L.atof d1) % 65536 = ⌊L.atof d1 / 100 * 4095⌋.toNat := by omega
  simp only [] at e3
  generalize apply_flags L fs {} = a0 at hp e3 ⊢
  cases rest with
  | nil =>
    have hok : pwm_invalid (duty_args L d1 [] a0) = false := by
      rw [pwm_invalid_eq_false_iff]; simp [duty_args, h1, e3]
    obtain ⟨r1, r2⟩ := execute_pwm_command_valid L fd cmd b _ hne hp hok
    refine ⟨r1, ?_⟩
    rw [off_counts, r2]
    simp only [planned_calls, duty_args, e3, second_value]
    by_cases hdur : a0.duration > 0 <;> simp [off_counts, k1, hdur]
  | cons d2 r =>
    by_cases hd : d2.head? ≠ some '-'
    · have hs : second_value (d2 :: r) = some d2 := by simp [second_value, hd]
      have c2 := duty_count_eq_floor (L.atof d2) (h2 d2 hs).1 (h2 d2 hs).2
      have k2 : duty_count (L.atof d2) % 65536 = ⌊L.atof d2 / 100 * 4095⌋.toNat := by omega
      have hok : pwm_invalid (duty_args L d1 (d2 :: r) a0) = false := by
        rw [pwm_invalid_eq_false_iff]; simp [duty_args, hd, h1, h2 d2 hs]
      obtain ⟨r1, r2⟩ := execute_pwm_command_valid L fd cmd b _ hne hp hok
      refine ⟨r1, ?_⟩
      rw [off_counts, r2, hs]
      simp only [planned_calls, duty_args, hd, ne_eq, not_false_eq_true, if_true]
      cases hcc : a0.custom_channel <;> by_cases hdur : a0.duration > 0 <;>
        simp [off_counts, k1, k2, hdur]
    · have hs : second_value (d2 :: r) = none := by simp [second_value, hd]
      have hok : pwm_invalid (duty_args L d1 (d2 :: r) a0) = false := by
        rw [pwm_invalid_eq_false_iff]; simp [duty_args, hd, h1, e3]
      obtain ⟨r1, r2⟩ := execute_pwm_command_valid L fd cmd b _ hne hp hok
      refine ⟨r1, ?_⟩
      rw [off_counts, r2, hs]
      simp only [planned_calls, duty_args, hd, e3, if_false]
      by_cases hdur : a0.duration > 0 <;> simp [off_counts, k1, hdur]

/-- Witness of the amended C2 on the two-value command `25 75`: the counts
passed are 1023 and 3071 (from 1023.75 and 3071.25). -/
theorem execute_pwm_command_counts_truncated_witness :
    (execute_pwm_command libc_dec 3 "25 75".toList ⟨[], []⟩).1 = 0 ∧
      off_counts (execute_pwm_command libc_dec 3 "25 75".toList ⟨[], []⟩).2.trace =
        [1023, 3071] := by
  have hs : second_value ["75".toList] = some "75".toList := by decide
  have h := execute_pwm_command_counts_truncated libc_dec 3 ⟨[], []⟩ "25 75".toList []
    "25".toList ["75".toList] (by decide) (by decide) (by decide)
    (by rw [atof_dec_25]; norm_num)
    (by
      intro d2 h
      rw [hs] at h
      rw [← Option.some.inj h, atof_dec_75]; norm_num)
  have f1 : ⌊(25 : ℚ) / 100 * 4095⌋ = 1023 := by rw [Int.floor_eq_iff]; norm_num
  have f2 : ⌊(75 : ℚ) / 100 * 4095⌋ = 3071 := by rw [Int.floor_eq_iff]; norm_num
  refine ⟨h.1, ?_⟩
  have e := h.2
  rw [hs] at e
  simp only [apply_flags] at e
  rw [atof_dec_25, atof_dec_75, f1, f2] at e
  rw [e]
  simp [off_counts, pwm_calls]

/-- C3: the conversion `(uint16_t)((pwm / 100.0) * 4095)` of
`execute_pwm_command` is monotonic non-decreasing on [0,100], maps 0 to 0
and 100 to 4095, stays at or below 4095 on [0,100], and so no `set_pwm`
call made by `execute_pwm_command`, on any command, passes a count above
4095. -/
theorem duty_count_monotone_bounded :
    (∀ p q : ℚ, 0 ≤ p → p ≤ q → q ≤ 100 → duty_count p ≤ duty_count q) ∧
      duty_count 0 = 0 ∧ duty_count 100 = 4095 ∧
      (∀ p : ℚ, 0 ≤ p → p ≤ 100 → duty_count p ≤ 4095) ∧
      (∀ (L : Libc) (fd : Int) (cmd : CString) (b : Bus),
        ∃ calls, pwm_calls (execute_pwm_command L fd cmd b).2.trace =
            pwm_calls b.trace ++ calls ∧ ∀ c ∈ calls, c.2.2 ≤ 4095) := by
  refine ⟨?_, ?_, ?_, ?_, ?_⟩
  · intro p q hp hpq hq
    have e1 := (duty_count_eq_floor p hp (hpq.trans hq)).1
    have e2 := (duty_count_eq_floor q (hp.trans hpq) hq).1
    have hle : p / 100 * 4095 ≤ q / 100 * 4095 := by linarith
    have := Int.floor_le_floor hle
    omega
  · have e := (duty_count_eq_floor 0 le_rfl (by norm_num)).1
    have f : ⌊(0 : ℚ) / 100 * 4095⌋ = 0 := by norm_num
    omega
  · have e := (duty_count_eq_floor 100 (by norm_num) le_rfl).1
    have f : ⌊(100 : ℚ) / 100 * 4095⌋ = 4095 := by norm_num
    omega
  · intro p h0 h1
    exact (duty_count_eq_floor p h0 h1).2
  · intro L fd cmd b
    by_cases hne : (strtok_all cmd).take 10 = []
    · exact ⟨[], by simp [execute_pwm_command, hne], by simp⟩
    · cases hp : parse_args L ((strtok_all cmd).take 10) {} with
      | none => exact ⟨[], by simp [execute_pwm_command, hne, hp], by simp⟩
      | some a =>
        cases hok : pwm_invalid a with
        | true =>
          refine ⟨[], ?_, by simp⟩
          rw [execute_pwm_command_invalid L fd cmd b a hp hok]; simp
        | false =>
          exact ⟨planned_calls a, (execute_pwm_command_valid L fd cmd b a hne hp hok).2,
            planned_calls_le a hok⟩

/-- Witness of C3: 25 % and 50 % give counts in order, and the command
`100` passes exactly 4095. -/
theorem duty_count_monotone_bounded_witness :
    duty_count 25 ≤ duty_count 50 ∧ duty_count 50 ≤ 4095 := by
  exact ⟨duty_count_monotone_bounded.1 25 50 (by norm_num) (by norm_num) (by norm_num),
    duty_count_monotone_bounded.2.2.2.1 50 (by norm_num) (by norm_num)⟩

/-! ## The claims on the ranging module -/

theorem control_leds_invalid (data : sonar_data_t) (g : Gpio) (h : data.valid = 0) :
    control_leds data g LED_GREEN = false ∧ control_leds data g LED_YELLOW = false ∧
      control_leds data g LED_RED = false := by
  simp [control_leds, h, gpio_write_low, LED_GREEN, LED_YELLOW, LED_RED,
    Function.update_apply]

theorem leds_on_invalid (data : sonar_data_t) (g : Gpio) (h : data.valid = 0) :
    leds_on (control_leds data g) = 0 := by
  obtain ⟨a, b, c⟩ := control_leds_invalid data g h
  simp [leds_on, a, b, c]

/-- C4: the status label and the LEDs are determined by (distance, valid)
alone, in agreement: invalid gives "ERROR" with the three LEDs off; valid
with distance > 60 gives "FAR" with only green on; valid with
20 ≤ distance ≤ 60 gives "MEDIUM" with only yellow on; valid with
distance < 20 gives "CLOSE" with only red on. So one LED is on when the
snapshot is valid and none when it is not, whatever the lines were
before. -/
theorem update_status_control_leds_agree (data : sonar_data_t) (g : Gpio) :
    (data.valid = 0 →
      (update_status data).status = "ERROR".toList ∧
        control_leds data g LED_GREEN = false ∧ control_leds data g LED_YELLOW = false ∧
        control_leds data g LED_RED = false) ∧
    (data.valid ≠ 0 → data.distance_cm > 60 →
      (update_status data).status = "FAR".toList ∧
        control_leds data g LED_GREEN = true ∧ control_leds data g LED_YELLOW = false ∧
        control_leds data g LED_RED = false) ∧
    (data.valid ≠ 0 → 20 ≤ data.distance_cm → data.distance_cm ≤ 60 →
      (update_status data).status = "MEDIUM".toList ∧
        control_leds data g LED_GREEN = false ∧ control_leds data g LED_YELLOW = true ∧
        control_leds data g LED_RED = false) ∧
    (data.valid ≠ 0 → data.distance_cm < 20 →
      (update_status data).status = "CLOSE".toList ∧
        control_leds data g LED_GREEN = false ∧ control_leds data g LED_YELLOW = false ∧
        control_leds data g LED_RED = true) ∧
    leds_on (control_leds data g) = (if data.valid = 0 then 0 else 1) := by
  have inv := control_leds_invalid data g
  have far : data.valid ≠ 0 → data.distance_cm > 60 →
      (update_status data).status = "FAR".toList ∧
        control_leds data g LED_GREEN = true ∧ control_leds data g LED_YELLOW = false ∧
        control_leds data g LED_RED = false := by
    intro hv hd
    simp [update_status, control_leds, hv, hd, SONAR_THRESHOLD_HIGH, gpio_write_low,
      gpio_write_high, LED_GREEN, LED_YELLOW, LED_RED, Function.update_apply]
  have med : data.valid ≠ 0 → 20 ≤ data.distance_cm → data.distance_cm ≤ 60 →
      (update_status data).status = "MEDIUM".toList ∧
        control_leds data g LED_GREEN = false ∧ control_leds data g LED_YELLOW = true ∧
        control_leds data g LED_RED = false := by
    intro hv h20 h60
    have h60n : ¬ (60 < data.distance_cm) := not_lt.mpr h60
    simp [update_status, control_leds, hv, h20, h60n, SONAR_THRESHOLD_HIGH,
      SONAR_THRESHOLD_LOW, gpio_write_low, gpio_write_high, LED_GREEN, LED_YELLOW, LED_RED,
      Function.update_apply]
  have close : data.valid ≠ 0 → data.distance_cm < 20 →
      (update_status data).status = "CLOSE".toList ∧
        control_leds data g LED_GREEN = false ∧ control_leds data g LED_YELLOW = false ∧
        control_leds data g LED_RED = true := by
    intro hv h20
    have h20n : ¬ (20 ≤ data.distance_cm) := not_le.mpr h20
    have h60n : ¬ (60 < data.distance_cm) := by
      intro h; exact h20n (by linarith)
    simp [update_status, control_leds, hv, h20n, h60n, SONAR_THRESHOLD_HIGH,
      SONAR_THRESHOLD_LOW, gpio_write_low, gpio_write_high, LED_GREEN, LED_YELLOW, LED_RED,
      Function.update_apply]
  refine ⟨fun hv => ⟨by simp [update_status, hv], inv hv⟩, far, med, close, ?_⟩
  by_cases hv : data.valid = 0
  · rw [if_pos hv]
    exact leds_on_invalid data g hv
  · rcases lt_or_le (60 : ℚ) data.distance_cm with h | h
    · obtain ⟨-, a, b, c⟩ := far hv h
      simp [leds_on, hv, a, b, c]
    · rcases lt_or_le data.distance_cm (20 : ℚ) with h2 | h2
      · obtain ⟨-, a, b, c⟩ := close hv h2
        simp [leds_on, hv, a, b, c]
      · obtain ⟨-, a, b, c⟩ := med hv h2 h
        simp [leds_on, hv, a, b, c]

/-- Witness of C4: a valid snapshot at 35 cm, with the three LEDs on
before, ends with only yellow on and the label "MEDIUM". -/
theorem update_status_control_leds_agree_witness :
    (update_status ⟨35, 1, []⟩).status = "MEDIUM".toList ∧
      control_leds ⟨35, 1, []⟩ (fun _ => true) LED_GREEN = false ∧
      control_leds ⟨35, 1, []⟩ (fun _ => true) LED_YELLOW = true ∧
      control_leds ⟨35, 1, []⟩ (fun _ => true) LED_RED = false :=
  (update_status_control_leds_agree ⟨35, 1, []⟩ (fun _ => true)).2.2.1
    (by decide) (by norm_num) (by norm_num)

theorem wait_echo_exit (echo : Nat → Bool) (lvl : Bool) (pos t : Nat)
    (h : echo pos ≠ lvl) : wait_echo echo lvl pos t = (true, pos + 1) := by
  rw [wait_echo]; simp [h]

theorem wait_echo_timeout_iff (echo : Nat → Bool) (lvl : Bool) :
    ∀ (n pos t : Nat), t + n = 30000 →
      ((wait_echo echo lvl pos t).1 = false ↔ ∀ k, k ≤ n → echo (pos + k) = lvl) := by
  intro n
  induction n with
  | zero =>
    intro pos t ht
    have ht2 : t = 30000 := by omega
    subst ht2
    rw [wait_echo]
    by_cases he : echo pos = lvl
    · simp [he]
    · simp only [he, if_false]
      constructor
      · intro h; cases h
      · intro h; exact absurd (h 0 le_rfl) he
  | succ n ih =>
    intro pos t ht
    rw [wait_echo]
    by_cases he : echo pos = lvl
    · have hlt : ¬ (t + 1 > 30000) := by omega
      simp only [he, if_true, hlt, if_false]
      rw [ih (pos + 1) (t + 1) (by omega)]
      constructor
      · intro h k hk
        cases k with
        | zero => exact he
        | succ k =>
          have := h k (by omega)
          rwa [show pos + 1 + k = pos + (k + 1) by omega] at this
      · intro h k hk
        have := h (k + 1) (by omega)
        rwa [show pos + (k + 1) = pos + 1 + k by omega] at this
    · simp only [he, if_false]
      constructor
      · intro h; cases h
      · intro h; exact absurd (h 0 (Nat.zero_le _)) he

theorem sonar_cycle_of_rejected (env : EchoEnv) (s : SonarState)
    (h : ¬ ((measure_distance env s.gpio).distance > 0 ∧
      (measure_distance env s.gpio).distance < SONAR_MAX_DISTANCE)) :
    (sonar_cycle env s).current_data =
      { distance_cm := s.current_data.distance_cm, valid := 0, status := "ERROR".toList } := by
  unfold sonar_cycle
  simp only []
  rw [if_neg h]
  simp [update_status]

theorem sonar_cycle_of_accepted (env : EchoEnv) (s : SonarState)
    (h : (measure_distance env s.gpio).distance > 0 ∧
      (measure_distance env s.gpio).distance < SONAR_MAX_DISTANCE) :
    (sonar_cycle env s).current_data.valid = 1 ∧
      (sonar_cycle env s).current_data.distance_cm = (measure_distance env s.gpio).distance := by
  unfold sonar_cycle
  simp only []
  rw [if_pos h]
  unfold update_status
  simp only []
  split_ifs <;> simp_all

theorem wait_echo_silent : (wait_echo env_silent.echo false 0 0).1 = false :=
  (wait_echo_timeout_iff env_silent.echo false 30000 0 0 (by norm_num)).mpr
    (fun _ _ => rfl)

/-- C5: when the wait for the echo to rise, or the wait for it to fall,
runs out of its budget, `measure_distance` returns -1 and the cycle
publishes a snapshot with `valid = 0` and status "ERROR", whatever the
snapshot was before; `get_distance` then returns -1, and the LEDs are off. -/
theorem sonar_cycle_timeout_publishes_invalid (env : EchoEnv) (s : SonarState)
    (h : (wait_echo env.echo false 0 0).1 = false ∨
      (wait_echo env.echo true (wait_echo env.echo false 0 0).2 0).1 = false) :
    (measure_distance env s.gpio).distance = -1 ∧
      (get_sonar_data (sonar_cycle env s)).valid = 0 ∧
      (get_sonar_data (sonar_cycle env s)).status = "ERROR".toList ∧
      get_distance (sonar_cycle env s) = -1 ∧
      leds_on (sonar_cycle env s).gpio = 0 := by
  have hm : (measure_distance env s.gpio).distance = -1 := by
    unfold measure_distance
    rcases h with h | h
    · simp [h]
    · by_cases h1 : (wait_echo env.echo false 0 0).1 = false
      · simp [h1]
      · simp [h1, h]
  have hrej : ¬ ((measure_distance env s.gpio).distance > 0 ∧
      (measure_distance env s.gpio).distance < SONAR_MAX_DISTANCE) := by
    rw [hm]; norm_num
  have hd := sonar_cycle_of_rejected env s hrej
  have hv : (sonar_cycle env s).current_data.valid = 0 := by rw [hd]
  have hs : (sonar_cycle env s).current_data.status = "ERROR".toList := by rw [hd]
  exact ⟨hm, hv, hs, by simp [get_distance, hv],
    leds_on_invalid (sonar_cycle env s).current_data (measure_distance env s.gpio).gpio hv⟩

/-- Witness of C5: the echo line never rises; the state before held a valid
snapshot at 35 cm. -/
theorem sonar_cycle_timeout_publishes_invalid_witness :
    (wait_echo env_silent.echo false 0 0).1 = false ∧
      (get_sonar_data (sonar_cycle env_silent sonar_state_35)).valid = 0 ∧
      get_distance (sonar_cycle env_silent sonar_state_35) = -1 :=
  ⟨wait_echo_silent,
    (sonar_cycle_timeout_publishes_invalid env_silent sonar_state_35
      (Or.inl wait_echo_silent)).2.1,
    (sonar_cycle_timeout_publishes_invalid env_silent sonar_state_35
      (Or.inl wait_echo_silent)).2.2.2.1⟩

theorem measure_distance_completed (env : EchoEnv) (g : Gpio)
    (h1 : (wait_echo env.echo false 0 0).1 = true)
    (h2 : (wait_echo env.echo true (wait_echo env.echo false 0 0).2 0).1 = true) :
    (measure_distance env g).distance = pulse_distance env := by
  unfold measure_distance pulse_distance
  simp [h1, h2]

theorem env_pulse_waits (t0 t1 : Int) :
    (wait_echo (env_pulse t0 t1).echo false 0 0).1 = true ∧
      (wait_echo (env_pulse t0 t1).echo true
        (wait_echo (env_pulse t0 t1).echo false 0 0).2 0).1 = true := by
  have e1 : wait_echo (env_pulse t0 t1).echo false 0 0 = (true, 1) :=
    wait_echo_exit _ _ _ _ (by simp [env_pulse])
  have e2 : wait_echo (env_pulse t0 t1).echo true 1 0 = (true, 2) :=
    wait_echo_exit _ _ _ _ (by simp [env_pulse])
  rw [e1]
  exact ⟨rfl, by rw [e2]⟩

/-- C6 fails for a pulse duration of 0: neither wait times out, the
distance measured is 0 cm, which is below the maximum range, and the
snapshot published is invalid. -/
theorem sonar_cycle_zero_pulse_invalid :
    (wait_echo (env_pulse 1000 1000).echo false 0 0).1 = true ∧
      (wait_echo (env_pulse 1000 1000).echo true
        (wait_echo (env_pulse 1000 1000).echo false 0 0).2 0).1 = true ∧
      (measure_distance (env_pulse 1000 1000) sonar_state_35.gpio).distance = 0 ∧
      (0 : ℚ) ≤ SONAR_MAX_DISTANCE ∧
      (get_sonar_data (sonar_cycle (env_pulse 1000 1000) sonar_state_35)).valid = 0 := by
  obtain ⟨h1, h2⟩ := env_pulse_waits 1000 1000
  have hm : (measure_distance (env_pulse 1000 1000) sonar_state_35.gpio).distance = 0 := by
    rw [measure_distance_completed _ _ h1 h2]
    simp [pulse_distance, env_pulse]
  refine ⟨h1, h2, hm, by norm_num [SONAR_MAX_DISTANCE], ?_⟩
  have hrej : ¬ ((measure_distance (env_pulse 1000 1000) sonar_state_35.gpio).distance > 0 ∧
      (measure_distance (env_pulse 1000 1000) sonar_state_35.gpio).distance <
        SONAR_MAX_DISTANCE) := by
    rw [hm]; norm_num
  rw [get_sonar_data, sonar_cycle_of_rejected _ _ hrej]

theorem pulse_distance_ne_max (env : EchoEnv) : pulse_distance env ≠ SONAR_MAX_DISTANCE := by
  unfold pulse_distance SONAR_MAX_DISTANCE
  intro h
  have h2 : ((env.t_end - env.t_start : Int) : ℚ) * 1715 = 40000000 := by linarith
  have h3 : (env.t_end - env.t_start) * 1715 = 40000000 := by exact_mod_cast h2
  omega

/-- C6 as amended: for a ranging cycle in which neither wait timed out and
the distance measured is d = pulse_duration * 0.01715: if d is greater than
the maximum range (400 cm), or is not positive (as d = 0 from a pulse
duration of 0), the snapshot published is invalid; if d is positive and at
or below the maximum the snapshot is published valid with
`distance_cm = d`, also when d is below the 2 cm minimum constant, which is
never enforced. The code's test is d < 400; no whole number of
microseconds gives exactly 400. -/
theorem sonar_cycle_range_check (env : EchoEnv) (s : SonarState)
    (h1 : (wait_echo env.echo false 0 0).1 = true)
    (h2 : (wait_echo env.echo true (wait_echo env.echo false 0 0).2 0).1 = true) :
    (measure_distance env s.gpio).distance = pulse_distance env ∧
      (pulse_distance env ≤ 0 ∨ SONAR_MAX_DISTANCE < pulse_distance env →
        (get_sonar_data (sonar_cycle env s)).valid = 0 ∧
          (get_sonar_data (sonar_cycle env s)).status = "ERROR".toList) ∧
      (0 < pulse_distance env → pulse_distance env ≤ SONAR_MAX_DISTANCE →
        (get_sonar_data (sonar_cycle env s)).valid = 1 ∧
          (get_sonar_data (sonar_cycle env s)).distance_cm = pulse_distance env) ∧
      (0 < pulse_distance env → pulse_distance env < SONAR_MIN_DISTANCE →
        (get_sonar_data (sonar_cycle env s)).valid = 1 ∧
          (get_sonar_data (sonar_cycle env s)).distance_cm = pulse_distance env) := by
  have hm := measure_distance_completed env s.gpio h1 h2
  have acc : 0 < pulse_distance env → pulse_distance env ≤ SONAR_MAX_DISTANCE →
      (get_sonar_data (sonar_cycle env s)).valid = 1 ∧
        (get_sonar_data (sonar_cycle env s)).distance_cm = pulse_distance env := by
    intro h0 h400
    have hlt : pulse_distance env < SONAR_MAX_DISTANCE :=
      lt_of_le_of_ne h400 (pulse_distance_ne_max env)
    have := sonar_cycle_of_accepted env s (by rw [hm]; exact ⟨h0, hlt⟩)
    rw [hm] at this
    exact this
  refine ⟨hm, ?_, acc, ?_⟩
  · intro h
    have hrej : ¬ ((measure_distance env s.gpio).distance > 0 ∧
        (measure_distance env s.gpio).distance < SONAR_MAX_DISTANCE) := by
      rw [hm]
      rintro ⟨a, b⟩
      rcases h with h | h
      · exact absurd a (not_lt.mpr h)
      · exact absurd b (not_lt.mpr h.le)
    rw [get_sonar_data, sonar_cycle_of_rejected _ _ hrej]
    exact ⟨rfl, rfl⟩
  · intro h0 hmin
    exact acc h0 (le_of_lt (lt_trans hmin
      (by norm_num [SONAR_MIN_DISTANCE, SONAR_MAX_DISTANCE])))

/-- Witness of the amended C6: a pulse of 100 microseconds gives 1.715 cm,
below the 2 cm constant, and is published as valid. -/
theorem sonar_cycle_range_check_witness :
    pulse_distance (env_pulse 1000 1100) = 343 / 200 ∧
      (get_sonar_data (sonar_cycle (env_pulse 1000 1100) sonar_state_35)).valid = 1 ∧
      (get_sonar_data (sonar_cycle (env_pulse 1000 1100) sonar_state_35)).distance_cm =
        pulse_distance (env_pulse 1000 1100) := by
  have hd : pulse_distance (env_pulse 1000 1100) = 343 / 200 := by
    simp [pulse_distance, env_pulse]; norm_num
  exact ⟨hd, (sonar_cycle_range_check (env_pulse 1000 1100) sonar_state_35
    (env_pulse_waits 1000 1100).1 (env_pulse_waits 1000 1100).2).2.2.2
      (by rw [hd]; norm_num) (by rw [hd]; norm_num [SONAR_MIN_DISTANCE])⟩

/-! ## The claim on the acquisition threads -/

theorem imu_poller_invariant (p : Poller) (h : ImuReachable p) :
    (p.thread_running = 0 ∧ p.threads = 0) ∨ (p.thread_running = 1 ∧ p.threads = 1) := by
  induction h with
  | init => left; exact ⟨rfl, rfl⟩
  | start ok p _ ih =>
    rcases ih with ⟨a, b⟩ | ⟨a, b⟩
    · cases ok <;> simp [start_imu_thread, a, b]
    · simp [start_imu_thread, a, b]
  | stop p _ ih =>
    rcases ih with ⟨a, b⟩ | ⟨a, b⟩
    · simp [stop_imu_thread, a, b]
    · simp [stop_imu_thread, a, b]

theorem sonar_poller_invariant (p : Poller) (h : SonarReachable p) :
    (p.thread_running = 0 ∧ p.threads = 0) ∨ (p.thread_running = 1 ∧ p.threads = 1) := by
  induction h with
  | init => left; exact ⟨rfl, rfl⟩
  | start ok p _ ih =>
    rcases ih with ⟨a, b⟩ | ⟨a, b⟩
    · cases ok <;> simp [start_sonar_thread, a, b]
    · simp [start_sonar_thread, a, b]
  | stop p _ ih =>
    rcases ih with ⟨a, b⟩ | ⟨a, b⟩
    · simp [stop_sonar_thread, a, b]
    · simp [stop_sonar_thread, a, b]

/-- C7: for both pollers, `start` with the running flag set returns -1 and
changes nothing (no thread is created, the flag stays set); `start` from
Idle whose `pthread_create` fails returns -1 with the flag cleared again
and no thread; `stop` from Idle changes nothing; and every state reachable
from the initial one by `start` and `stop` calls has at most one
acquisition thread. -/
theorem pollers_single_thread :
    ((∀ (ok : Bool) (p : Poller), p.thread_running ≠ 0 → start_imu_thread ok p = (-1, p)) ∧
      (∀ p : Poller, p.thread_running = 0 → start_imu_thread false p = (-1, p)) ∧
      (∀ p : Poller, p.thread_running = 0 → stop_imu_thread p = p) ∧
      (∀ p : Poller, ImuReachable p → p.threads ≤ 1)) ∧
    ((∀ (ok : Bool) (p : Poller), p.thread_running ≠ 0 → start_sonar_thread ok p = (-1, p)) ∧
      (∀ p : Poller, p.thread_running = 0 → start_sonar_thread false p = (-1, p)) ∧
      (∀ p : Poller, p.thread_running = 0 → stop_sonar_thread p = p) ∧
      (∀ p : Poller, SonarReachable p → p.threads ≤ 1)) := by
  refine ⟨⟨?_, ?_, ?_, ?_⟩, ⟨?_, ?_, ?_, ?_⟩⟩
  · intro ok p h; simp [start_imu_thread, h]
  · intro p h
    cases p with
    | mk r t => simp only [] at h; subst h; simp [start_imu_thread]
  · intro p h; simp [stop_imu_thread, h]
  · intro p h
    rcases imu_poller_invariant p h with ⟨_, b⟩ | ⟨_, b⟩ <;> omega
  · intro ok p h; simp [start_sonar_thread, h]
  · intro p h
    cases p with
    | mk r t => simp only [] at h; subst h; simp [start_sonar_thread]
  · intro p h; simp [stop_sonar_thread, h]
  · intro p h
    rcases sonar_poller_invariant p h with ⟨_, b⟩ | ⟨_, b⟩ <;> omega

/-- Witness of C7: after a successful start the poller is Running with one
thread; a second start is refused and the state stays the same. -/
theorem pollers_single_thread_witness :
    (start_imu_thread true Poller.init).2 = ⟨1, 1⟩ ∧
      start_imu_thread true ⟨1, 1⟩ = (-1, ⟨1, 1⟩) ∧
      (⟨1, 1⟩ : Poller).threads ≤ 1 ∧
      start_sonar_thread true ⟨1, 1⟩ = (-1, ⟨1, 1⟩) :=
  ⟨by decide, pollers_single_thread.1.1 true ⟨1, 1⟩ (by decide),
    pollers_single_thread.1.2.2.2 ⟨1, 1⟩
      (ImuReachable.start true Poller.init ImuReachable.init),
    pollers_single_thread.2.1 true ⟨1, 1⟩ (by decide)⟩

/-! ## The claims on the orientation commands -/

theorem execute_imu_command_known (L : Libc) (data : imu_data_t) (cmd resp : CString)
    (size : Nat) (h : strip_trailing cmd ∈ imu_known) :
    (execute_imu_command L data (some cmd) (some resp) size).1 = 0 := by
  simp only [imu_known, List.mem_cons, List.mem_singleton, List.not_mem_nil, or_false] at h
  unfold execute_imu_command
  simp only []
  rcases h with h | h | h | h | h <;> rw [h] <;> simp

theorem execute_imu_command_unknown (L : Libc) (data : imu_data_t) (cmd resp : CString)
    (size : Nat) (h : strip_trailing cmd ∉ imu_known) :
    execute_imu_command L data (some cmd) (some resp) size =
      (-1, some (snprintf resp size (imu_unknown (strip_trailing cmd)))) := by
  simp only [imu_known, List.mem_cons, List.mem_singleton, List.not_mem_nil, or_false,
    not_or] at h
  obtain ⟨a, b, c, d, e⟩ := h
  unfold execute_imu_command
  simp only []
  rw [if_neg (not_or.mpr ⟨a, not_or.mpr ⟨b, c⟩⟩), if_neg d, if_neg e]

theorem execute_imu_command_report (L : Libc) (data : imu_data_t) (cmd resp : CString)
    (size : Nat) (h : strip_trailing cmd ∈ ["read".toList, "get".toList, "".toList]) :
    execute_imu_command L data (some cmd) (some resp) size =
      (0, some (snprintf resp size (imu_report L data))) := by
  simp only [List.mem_cons, List.mem_singleton, List.not_mem_nil, or_false] at h
  unfold execute_imu_command
  simp only []
  rw [if_pos h]

theorem execute_imu_command_unknown_line (L : Libc) (data : imu_data_t)
    (cmd resp : CString) (size : Nat) (hn : strip_trailing cmd ∉ imu_known)
    (hlen : (imu_unknown (strip_trailing cmd)).length < size) :
    execute_imu_command L data (some cmd) (some resp) size =
      (-1, some ("ERROR: Unknown IMU command '".toList ++ strip_trailing cmd ++
        "'\n".toList)) := by
  rw [execute_imu_command_unknown L data cmd resp size hn]
  have hs : size ≠ 0 := by omega
  have ht : (imu_unknown (strip_trailing cmd)).take (size - 1) =
      imu_unknown (strip_trailing cmd) := List.take_of_length_le (by omega)
  simp only [snprintf, hs, if_false, ht]
  rfl

/-- The sub-commands on the text left by the stripping loop: with non-null
arguments `execute_imu_command` returns 0 exactly
when the sub-command left by its stripping loop is one of "read", "get",
the empty string, "raw", "orientation"; "read", "get" and the empty string
give one and the same report for a snapshot; for every other sub-command
the result is -1 and the response is the line
"ERROR: Unknown IMU command '<cmd>'\n" as `snprintf` stores it, which is
the whole line when the buffer has room for it. -/
theorem execute_imu_command_subcommands (L : Libc) (data : imu_data_t)
    (cmd resp : CString) (size : Nat) :
    ((execute_imu_command L data (some cmd) (some resp) size).1 = 0 ↔
        strip_trailing cmd ∈ imu_known) ∧
      (strip_trailing cmd ∈ ["read".toList, "get".toList, "".toList] →
        execute_imu_command L data (some cmd) (some resp) size =
          (0, some (snprintf resp size (imu_report L data)))) ∧
      (strip_trailing cmd ∉ imu_known →
        execute_imu_command L data (some cmd) (some resp) size =
          (-1, some (snprintf resp size (imu_unknown (strip_trailing cmd))))) ∧
      (strip_trailing cmd ∉ imu_known →
        (imu_unknown (strip_trailing cmd)).length < size →
        execute_imu_command L data (some cmd) (some resp) size =
          (-1, some ("ERROR: Unknown IMU command '".toList ++ strip_trailing cmd ++
            "'\n".toList))) := by
  refine ⟨⟨?_, execute_imu_command_known L data cmd resp size⟩,
    execute_imu_command_report L data cmd resp size,
    execute_imu_command_unknown L data cmd resp size,
    execute_imu_command_unknown_line L data cmd resp size⟩
  intro h0
  by_contra hn
  rw [execute_imu_command_unknown L data cmd resp size hn] at h0
  simp at h0

/-- An instance of the lemma above: "get" followed by a newline is known and gives the
report; "status" is unknown and gives the error line in a 1024-byte buffer. -/
theorem execute_imu_command_subcommands_witness :
    execute_imu_command libc_dec imu_zero (some "get\n".toList) (some []) 1024 =
        (0, some (snprintf [] 1024 (imu_report libc_dec imu_zero))) ∧
      execute_imu_command libc_dec imu_zero (some "status".toList) (some []) 1024 =
        (-1, some "ERROR: Unknown IMU command 'status'\n".toList) :=
  ⟨(execute_imu_command_subcommands libc_dec imu_zero "get\n".toList [] 1024).2.1
      (by decide),
    (execute_imu_command_subcommands libc_dec imu_zero "status".toList [] 1024).2.2.2
      (by decide) (by decide)⟩

theorem strip_loop_append (v t : List Char) (hv : ∀ c ∈ v, is_trailing_ws c = true)
    (ht : t ≠ []) : strip_loop (v ++ t) = strip_loop t := by
  induction v with
  | nil => rfl
  | cons c v ih =>
    have hc : is_trailing_ws c = true := hv c (List.mem_cons_self c v)
    have hne : v ++ t ≠ [] := by simp [ht]
    rw [List.cons_append, strip_loop, if_pos ⟨hne, hc⟩]
    exact ih (fun x hx => hv x (List.mem_cons_of_mem c hx))

theorem strip_trailing_append (s w : CString) (hs : s ≠ [])
    (hw : ∀ c ∈ w, is_trailing_ws c = true) :
    strip_trailing (s ++ w) = strip_trailing s := by
  unfold strip_trailing
  rw [List.reverse_append, strip_loop_append w.reverse s.reverse
    (fun c hc => hw c (List.mem_reverse.mp hc)) (by simpa using hs)]

/-- C9 at the empty sub-command: on the empty text `execute_imu_command`
returns 0 with the report, while on the empty text followed by one space
(or one tab) it returns -1 with the error line, because the stripping loop
never removes the first character. For a non-empty sub-command `s` the
claim holds: `s` followed by trailing whitespace gives the result of `s`. -/
theorem execute_imu_command_whitespace_only (L : Libc) (data : imu_data_t) (resp : CString) :
    execute_imu_command L data (some []) (some resp) 1024 =
        (0, some (snprintf resp 1024 (imu_report L data))) ∧
      execute_imu_command L data (some [' ']) (some resp) 1024 =
        (-1, some "ERROR: Unknown IMU command ' '\n".toList) ∧
      execute_imu_command L data (some ['\t']) (some resp) 1024 =
        (-1, some "ERROR: Unknown IMU command '\t'\n".toList) ∧
      (∀ (s w : CString) (size : Nat), s ≠ [] → (∀ c ∈ w, is_trailing_ws c = true) →
        execute_imu_command L data (some (s ++ w)) (some resp) size =
          execute_imu_command L data (some s) (some resp) size) := by
  refine ⟨?_, ?_, ?_, ?_⟩
  · exact execute_imu_command_report L data [] resp 1024 (by decide)
  · exact execute_imu_command_unknown_line L data [' '] resp 1024 (by decide) (by decide)
  · exact execute_imu_command_unknown_line L data ['\t'] resp 1024 (by decide) (by decide)
  · intro s w size hs hw
    unfold execute_imu_command
    simp only [strip_trailing_append s w hs hw]

/-- Witness of the part of C9 that holds: "read" followed by a space and a
newline is answered as "read". -/
theorem execute_imu_command_whitespace_only_witness :
    execute_imu_command libc_dec imu_zero (some ("read".toList ++ " \n".toList)) (some [])
        1024 =
      execute_imu_command libc_dec imu_zero (some "read".toList) (some []) 1024 :=
  (execute_imu_command_whitespace_only libc_dec imu_zero []).2.2.2
    "read".toList " \n".toList 1024 (by decide) (by decide)

/-! ## The claim on the dispatcher -/

/-- C10: `handle_client` routes a non-empty line by its first three
characters, compared as they are: after "IMU" it calls
`execute_imu_command` with the text behind the three characters and the
spaces that follow them, and writes its response; after "PWM" it calls
`execute_pwm_command` with the text behind them and the spaces; every other
line goes to `execute_pwm_command` as it is, so "imu read" and
"SONAR read" do. The reply of the actuator path is "OK\n" or "ERROR\n" by
the result code. No input makes it call `execute_sonar_command`. -/
theorem handle_client_routes (L : Libc) (data : imu_data_t) (resp0 : CString)
    (input : List Char) (fd : Int) (b : Bus) :
    (read_line input ≠ [] →
      (∀ rest, c_str (read_line input) = 'I' :: 'M' :: 'U' :: rest →
        handle_client L data resp0 input fd b =
          { writes := [c_str ((execute_imu_command L data (some (skip_spaces rest))
              (some resp0) 1024).2.getD [])],
            bus := b, called := some (Delegate.imu (skip_spaces rest)) }) ∧
      (∀ rest, c_str (read_line input) = 'P' :: 'W' :: 'M' :: rest →
        handle_client L data resp0 input fd b =
          { writes := [if (execute_pwm_command L fd (skip_spaces rest) b).1 = 0
              then "OK\n".toList else "ERROR\n".toList],
            bus := (execute_pwm_command L fd (skip_spaces rest) b).2,
            called := some (Delegate.pwm (skip_spaces rest)) }) ∧
      ((c_str (read_line input)).take 3 ≠ "IMU".toList →
        (c_str (read_line input)).take 3 ≠ "PWM".toList →
        handle_client L data resp0 input fd b =
          { writes := [if (execute_pwm_command L fd (c_str (read_line input)) b).1 = 0
              then "OK\n".toList else "ERROR\n".toList],
            bus := (execute_pwm_command L fd (c_str (read_line input)) b).2,
            called := some (Delegate.pwm (c_str (read_line input))) })) ∧
    (handle_client L data resp0 "imu read\n".toList fd b).called =
      some (Delegate.pwm "imu read".toList) ∧
    (handle_client L data resp0 "SONAR read\n".toList fd b).called =
      some (Delegate.pwm "SONAR read".toList) ∧
    (∀ cmd, (handle_client L data resp0 input fd b).called ≠ some (Delegate.sonar cmd)) := by
  refine ⟨fun hne => ⟨?_, ?_, ?_⟩, ?_, ?_, ?_⟩
  · intro rest hb
    have hlen : (read_line input).length > 0 := List.length_pos.mpr hne
    unfold handle_client
    simp only [hlen, if_true, hb]
    rfl
  · intro rest hb
    have hlen : (read_line input).length > 0 := List.length_pos.mpr hne
    have ht : List.take 3 ('P' :: 'W' :: 'M' :: rest) = "PWM".toList := rfl
    have hd : List.drop 3 ('P' :: 'W' :: 'M' :: rest) = rest := rfl
    unfold handle_client
    simp only [hlen, if_true, hb, ht, hd]
    rw [if_neg (by decide)]
    split_ifs <;> rfl
  · intro h1 h2
    have hlen : (read_line input).length > 0 := List.length_pos.mpr hne
    unfold handle_client
    simp only [hlen, if_true, if_neg h1, if_neg h2]
    split_ifs <;> rfl
  · have hl : read_line "imu read\n".toList = "imu read".toList := by decide
    have hc : c_str "imu read".toList = "imu read".toList := by decide
    unfold handle_client
    simp only [hl, hc]
    rw [if_pos (by decide), if_neg (by decide), if_neg (by decide)]
    split_ifs <;> rfl
  · have hl : read_line "SONAR read\n".toList = "SONAR read".toList := by decide
    have hc : c_str "SONAR read".toList = "SONAR read".toList := by decide
    unfold handle_client
    simp only [hl, hc]
    rw [if_pos (by decide), if_neg (by decide), if_neg (by decide)]
    split_ifs <;> rfl
  · intro cmd
    unfold handle_client
    simp only []
    split_ifs <;> simp

/-- Witness of C10: the line "IMU  raw" reaches `execute_imu_command` as
"raw"; "PWM 50" reaches `execute_pwm_command` as "50"; "pwm 50" reaches it
unchanged. -/
theorem handle_client_routes_witness :
    (handle_client libc_dec imu_zero [] "IMU  raw\n".toList 3 ⟨[], []⟩).called =
        some (Delegate.imu "raw".toList) ∧
      (handle_client libc_dec imu_zero [] "PWM 50\n".toList 3 ⟨[], []⟩).called =
        some (Delegate.pwm "50".toList) ∧
      (handle_client libc_dec imu_zero [] "pwm 50\n".toList 3 ⟨[], []⟩).called =
        some (Delegate.pwm "pwm 50".toList) := by
  have h1 := ((handle_client_routes libc_dec imu_zero [] "IMU  raw\n".toList 3 ⟨[], []⟩).1
    (by decide)).1 "  raw".toList (by decide)
  have h2 := ((handle_client_routes libc_dec imu_zero [] "PWM 50\n".toList 3 ⟨[], []⟩).1
    (by decide)).2.1 " 50".toList (by decide)
  have h3 := ((handle_client_routes libc_dec imu_zero [] "pwm 50\n".toList 3 ⟨[], []⟩).1
    (by decide)).2.2 (by decide) (by decide)
  refine ⟨?_, ?_, ?_⟩
  · rw [h1]; decide
  · rw [h2]; decide
  · rw [h3]; decide

/-! ## The claim on the replies of the dispatcher -/

/-- C11 fails for the empty line: when the client sends only a newline,
`handle_client` reads an empty line and writes nothing to the client. -/
theorem handle_client_empty_line_no_reply :
    read_line "\n".toList = [] ∧
      (handle_client libc_dec imu_zero [] "\n".toList 3 ⟨[], []⟩).writes = [] := by
  constructor <;> decide

/-- C11 as amended: for every non-empty line `handle_client` writes exactly
one response to the client: the response of `execute_imu_command` (a reply
or its error line), "OK\n" or "ERROR\n"; for the empty line it writes
nothing, calls no handler and leaves the bus as it was. -/
theorem handle_client_one_reply (L : Libc) (data : imu_data_t) (resp0 : CString)
    (input : List Char) (fd : Int) (b : Bus) :
    (read_line input ≠ [] →
      ∃ w, (handle_client L data resp0 input fd b).writes = [w] ∧
        (w = c_str ((execute_imu_command L data
            (some (skip_spaces ((c_str (read_line input)).drop 3))) (some resp0) 1024).2.getD [])
          ∨ w = "OK\n".toList ∨ w = "ERROR\n".toList)) ∧
    (read_line input = [] →
      handle_client L data resp0 input fd b = { writes := [], bus := b, called := none }) := by
  constructor
  · intro hne
    have hlen : (read_line input).length > 0 := List.length_pos.mpr hne
    unfold handle_client
    simp only [hlen, if_true]
    split_ifs
    · exact ⟨_, rfl, Or.inl rfl⟩
    · exact ⟨_, rfl, Or.inr (Or.inl rfl)⟩
    · exact ⟨_, rfl, Or.inr (Or.inr rfl)⟩
    · exact ⟨_, rfl, Or.inr (Or.inl rfl)⟩
    · exact ⟨_, rfl, Or.inr (Or.inr rfl)⟩
  · intro he
    unfold handle_client
    simp [he]

/-- Witness of the amended C11: the line "IMU bogus" is answered by one
write, and the empty line by none. -/
theorem handle_client_one_reply_witness :
    (∃ w, (handle_client libc_dec imu_zero [] "IMU bogus\n".toList 3 ⟨[], []⟩).writes = [w] ∧
        (w = c_str ((execute_imu_command libc_dec imu_zero
            (some (skip_spaces ((c_str (read_line "IMU bogus\n".toList)).drop 3)))
            (some []) 1024).2.getD [])
          ∨ w = "OK\n".toList ∨ w = "ERROR\n".toList)) ∧
      handle_client libc_dec imu_zero [] "\n".toList 3 ⟨[], []⟩ =
        { writes := [], bus := ⟨[], []⟩, called := none } :=
  ⟨(handle_client_one_reply libc_dec imu_zero [] "IMU bogus\n".toList 3 ⟨[], []⟩).1
      (by decide),
    (handle_client_one_reply libc_dec imu_zero [] "\n".toList 3 ⟨[], []⟩).2 (by decide)⟩

/-! ## Further claims on the actuator module -/

theorem execute_pwm_command_no_tokens (L : Libc) (fd : Int) (cmd : CString) (b : Bus)
    (h : (strtok_all cmd).take 10 = []) : execute_pwm_command L fd cmd b = (-1, b) := by
  unfold execute_pwm_command
  simp [h]

theorem execute_pwm_command_parse_none (L : Libc) (fd : Int) (cmd : CString) (b : Bus)
    (h : parse_args L ((strtok_all cmd).take 10) {} = none) :
    execute_pwm_command L fd cmd b = (-1, b) := by
  unfold execute_pwm_command
  simp only [h]
  split_ifs <;> rfl

theorem duty_count_50 : duty_count 50 = 2047 := by
  have h := (duty_count_eq_floor 50 (by norm_num) (by norm_num)).1
  have e : ⌊(50 : ℚ) / 100 * 4095⌋ = 2047 := by
    rw [Int.floor_eq_iff]; norm_num
  omega

theorem lsm9ds1_read_first_block_fails (blocks : ImuBlocks) (lsm : lsm9ds1_t)
    (h : blocks.accel = none) : lsm9ds1_read blocks lsm = (false, lsm) := by
  simp [lsm9ds1_read, i2c_read_block, h]

theorem imu_cycle_of_failed_read (M : Libm) (blocks : ImuBlocks) (s : ImuState)
    (h : (lsm9ds1_read blocks s.sensor).1 = false) :
    (imu_cycle M blocks s).current_data = s.current_data := by
  unfold imu_cycle
  simp [h]

/-- C15 fails: when the first block read of `lsm9ds1_read` fails, the read
returns false and the cycle leaves the snapshot as it was: `get_imu_data`
returns the readings of the earlier cycle, equal to the prior snapshot in
every field. -/
theorem imu_cycle_failed_read_keeps_snapshot :
    (lsm9ds1_read blocks_failing sensor_idle).1 = false ∧
      get_imu_data (imu_cycle libm_null blocks_failing ⟨sensor_idle, imu_earlier⟩) =
        get_imu_data ⟨sensor_idle, imu_earlier⟩ ∧
      get_imu_data (imu_cycle libm_null blocks_failing ⟨sensor_idle, imu_earlier⟩) =
        imu_earlier := by
  have h : (lsm9ds1_read blocks_failing sensor_idle).1 = false := by
    rw [lsm9ds1_read_first_block_fails blocks_failing sensor_idle rfl]
  exact ⟨h, imu_cycle_of_failed_read libm_null blocks_failing ⟨sensor_idle, imu_earlier⟩ h,
    imu_cycle_of_failed_read libm_null blocks_failing ⟨sensor_idle, imu_earlier⟩ h⟩

/-- C15 as amended: a cycle of the orientation poller whose hardware read
(`lsm9ds1_read`) fails publishes nothing: after it `get_imu_data` returns
the prior snapshot, unchanged in every field; the snapshot carries no
validity mark. A cycle whose read succeeds publishes the snapshot computed
from the readings of that read. -/
theorem imu_cycle_failed_read (M : Libm) (blocks : ImuBlocks) (s : ImuState) :
    ((lsm9ds1_read blocks s.sensor).1 = false →
      get_imu_data (imu_cycle M blocks s) = get_imu_data s) ∧
    ((lsm9ds1_read blocks s.sensor).1 = true →
      get_imu_data (imu_cycle M blocks s) =
        calculate_orientation M
          { s.current_data with
            accel_x := (lsm9ds1_read blocks s.sensor).2.acceleration.x,
            accel_y := (lsm9ds1_read blocks s.sensor).2.acceleration.y,
            accel_z := (lsm9ds1_read blocks s.sensor).2.acceleration.z,
            gyro_x := (lsm9ds1_read blocks s.sensor).2.gyro.x,
            gyro_y := (lsm9ds1_read blocks s.sensor).2.gyro.y,
            gyro_z := (lsm9ds1_read blocks s.sensor).2.gyro.z,
            mag_x := (lsm9ds1_read blocks s.sensor).2.magnetic.x,
            mag_y := (lsm9ds1_read blocks s.sensor).2.magnetic.y,
            mag_z := (lsm9ds1_read blocks s.sensor).2.magnetic.z,
            temp := (lsm9ds1_read blocks s.sensor).2.temperature }) := by
  constructor
  · intro h
    exact imu_cycle_of_failed_read M blocks s h
  · intro h
    unfold imu_cycle get_imu_data
    simp only [h, if_true]

/-- Witness of the amended C15: the temperature block is short, so the read
fails after the three vectors were read, and the snapshot stays. -/
theorem imu_cycle_failed_read_witness :
    (lsm9ds1_read ⟨some [0, 0, 0, 0, 0, 64], some [0, 0, 0, 0, 0, 0],
        some [1, 0, 0, 0, 0, 0], some [7]⟩ sensor_idle).1 = false ∧
      get_imu_data (imu_cycle libm_null ⟨some [0, 0, 0, 0, 0, 64], some [0, 0, 0, 0, 0, 0],
          some [1, 0, 0, 0, 0, 0], some [7]⟩ ⟨sensor_idle, imu_earlier⟩) =
        get_imu_data ⟨sensor_idle, imu_earlier⟩ := by
  have h : (lsm9ds1_read ⟨some [0, 0, 0, 0, 0, 64], some [0, 0, 0, 0, 0, 0],
      some [1, 0, 0, 0, 0, 0], some [7]⟩ sensor_idle).1 = false := by
    simp [lsm9ds1_read, i2c_read_block]
  exact ⟨h, (imu_cycle_failed_read libm_null _ ⟨sensor_idle, imu_earlier⟩).1 h⟩

/-! ## The claim on the bound of the echo waits -/

theorem wait_echo_reads (echo : Nat → Bool) (lvl : Bool) :
    ∀ (n pos t : Nat), t + n = 30000 →
      pos + 1 ≤ (wait_echo echo lvl pos t).2 ∧
        (wait_echo echo lvl pos t).2 ≤ pos + n + 1 ∧
        ((wait_echo echo lvl pos t).1 = false →
          (wait_echo echo lvl pos t).2 = pos + n + 1) := by
  intro n
  induction n with
  | zero =>
    intro pos t ht
    have ht2 : t = 30000 := by omega
    subst ht2
    rw [wait_echo]
    by_cases he : echo pos = lvl <;> simp [he]
  | succ n ih =>
    intro pos t ht
    rw [wait_echo]
    by_cases he : echo pos = lvl
    · have hlt : ¬ (t + 1 > 30000) := by omega
      simp only [he, if_true, hlt, if_false]
      obtain ⟨a, b, c⟩ := ih (pos + 1) (t + 1) (by omega)
      refine ⟨by omega, by omega, fun h => ?_⟩
      have := c h
      omega
    · simp [he]

/-- C17: `measure_distance` is defined for every behaviour of the echo line
and the clock. Each echo wait does at least one and at most 30001 reads of
the echo line, and when it ends by the timeout `return` it has done exactly
30001 reads, the last one taking the counter above 30000; the result is
then -1. A cycle does at most 60002 echo reads. -/
theorem measure_distance_bounded_reads (env : EchoEnv) (g : Gpio) :
    (∀ (lvl : Bool) (pos : Nat),
      pos + 1 ≤ (wait_echo env.echo lvl pos 0).2 ∧
        (wait_echo env.echo lvl pos 0).2 ≤ pos + 30001 ∧
        ((wait_echo env.echo lvl pos 0).1 = false →
          (wait_echo env.echo lvl pos 0).2 = pos + 30001)) ∧
      (measure_distance env g).reads ≤ 60002 ∧
      ((wait_echo env.echo false 0 0).1 = false →
        (measure_distance env g).distance = -1 ∧ (measure_distance env g).reads = 30001) ∧
      ((wait_echo env.echo false 0 0).1 = true →
        (wait_echo env.echo true (wait_echo env.echo false 0 0).2 0).1 = false →
        (measure_distance env g).distance = -1 ∧
          (measure_distance env g).reads = (wait_echo env.echo false 0 0).2 + 30001) := by
  have hw : ∀ (lvl : Bool) (pos : Nat),
      pos + 1 ≤ (wait_echo env.echo lvl pos 0).2 ∧
        (wait_echo env.echo lvl pos 0).2 ≤ pos + 30001 ∧
        ((wait_echo env.echo lvl pos 0).1 = false →
          (wait_echo env.echo lvl pos 0).2 = pos + 30001) := by
    intro lvl pos
    exact wait_echo_reads env.echo lvl 30000 pos 0 (by norm_num)
  obtain ⟨a1, b1, c1⟩ := hw false 0
  obtain ⟨a2, b2, c2⟩ := hw true (wait_echo env.echo false 0 0).2
  refine ⟨hw, ?_, ?_, ?_⟩
  · unfold measure_distance
    simp only []
    split_ifs <;> simp only [] <;> omega
  · intro h
    have hr : (wait_echo env.echo false 0 0).2 = 30001 := by simpa using c1 h
    constructor
    · unfold measure_distance; simp [h]
    · unfold measure_distance; simp [h, hr]
  · intro h1 h2
    constructor
    · unfold measure_distance; simp [h1, h2]
    · unfold measure_distance; simp [h1, h2, c2 h2]

/-- Witness of C17: on an echo line that never rises the first wait ends by
the timeout after 30001 reads and the result is -1. -/
theorem measure_distance_bounded_reads_witness :
    (measure_distance env_silent (fun _ => false)).distance = -1 ∧
      (measure_distance env_silent (fun _ => false)).reads = 30001 :=
  (measure_distance_bounded_reads env_silent (fun _ => false)).2.2.1 wait_echo_silent

/-! ## The claim on failed bus writes -/

theorem execute_pwm_command_single (L : Libc) (fd : Int) (cmd : CString) (b : Bus)
    (a : PwmArgs) (hne : (strtok_all cmd).take 10 ≠ [])
    (hp : parse_args L ((strtok_all cmd).take 10) {} = some a)
    (hok : pwm_invalid a = false) (hs : (a.use_dual && !a.custom_channel) = false)
    (hd : ¬ a.duration > 0) :
    execute_pwm_command L fd cmd b =
      (0, (set_pwm fd a.channel 0 (duty_count a.pwm1) b).2) := by
  unfold execute_pwm_command
  simp only [hp, hok, hne, hs, hd, if_false, Bool.false_eq_true]

theorem execute_pwm_command_50 (b : Bus) :
    execute_pwm_command libc_dec 3 "50".toList b = (0, (set_pwm 3 0 0 2047 b).2) := by
  have h50 : libc_dec.atof "50".toList = 50 := by
    simp [libc_dec, atof_dec, atof_unsigned, read_digits, digit_val]
  have hp : parse_args libc_dec ((strtok_all "50".toList).take 10) {} =
      some { pwm1 := 50 } := by
    have := parse_args_shape libc_dec [] "50".toList [] {} (by decide) (by decide)
    simpa [flag_tokens, duty_args, apply_flags, h50] using this
  have h := execute_pwm_command_single libc_dec 3 "50".toList b _ (by decide) hp
    (by simp [pwm_invalid]; norm_num) rfl (by simp)
  rw [h]
  simp only [duty_count_50]

/-- C18 at the command "50" with a failing bus: the first register write of
`set_pwm` fails, `set_pwm` returns -1 after that one write, and
`execute_pwm_command` still returns 0, so `handle_client` answers "OK\n".
Whatever the bus does, the command "50" returns 0. -/
theorem execute_pwm_command_ignores_write_failure :
    set_pwm 3 0 0 2047 ⟨[], [false]⟩ =
        (-1, ⟨[Event.set_pwm 3 0 0 2047, Event.reg_write 3 6 0], []⟩) ∧
      execute_pwm_command libc_dec 3 "50".toList ⟨[], [false]⟩ =
        (0, ⟨[Event.set_pwm 3 0 0 2047, Event.reg_write 3 6 0], []⟩) ∧
      (handle_client libc_dec imu_zero [] "50\n".toList 3 ⟨[], [false]⟩).writes =
        ["OK\n".toList] ∧
      (∀ b : Bus, (execute_pwm_command libc_dec 3 "50".toList b).1 = 0) := by
  have hs : set_pwm 3 0 0 2047 ⟨[], [false]⟩ =
      (-1, ⟨[Event.set_pwm 3 0 0 2047, Event.reg_write 3 6 0], []⟩) := by decide
  refine ⟨hs, ?_, ?_, ?_⟩
  · rw [execute_pwm_command_50, hs]
  · have hl : read_line "50\n".toList = "50".toList := by decide
    have hc : c_str "50".toList = "50".toList := by decide
    unfold handle_client
    simp only [hl, hc]
    rw [if_pos (by decide), if_neg (by decide), if_neg (by decide),
      execute_pwm_command_50]
    simp
  · intro b
    rw [execute_pwm_command_50]

/-! ## The claim on the reply for level attitude -/

theorem printf_f_dec_zero : libc_dec.printf_f 1 0 = "0.0".toList := by
  simp [libc_dec, printf_f_dec, round_half_even, Rat.floor]; decide

theorem imu_orientation_level (L : Libc) (data : imu_data_t) (hr : data.roll = 0)
    (hp : data.pitch = 0) (hy : data.yaw = 0) (hf : L.printf_f 1 0 = "0.0".toList) :
    imu_orientation L data = level_reply := by
  unfold imu_orientation level_reply
  rw [hr, hp, hy, hf]
  decide

/-- C19 at a level snapshot: with roll = pitch = yaw = 0 and "%.1f" printing
0 as "0.0", the sub-command "orientation" returns 0, and the response is
"Roll: 0.0", "Pitch: 0.0", "Yaw: 0.0" each followed by the three bytes
`EC A7 B8` that the format string of `imu.c` holds, not by the degree sign;
so it differs from the reply of the specification. `handle_client` writes
this response for the line "IMU orientation". -/
theorem execute_imu_command_level_reply (L : Libc) (data : imu_data_t) (resp : CString)
    (fd : Int) (b : Bus)
    (hr : data.roll = 0) (hp : data.pitch = 0) (hy : data.yaw = 0)
    (hf : L.printf_f 1 0 = "0.0".toList) :
    execute_imu_command L data (some "orientation".toList) (some resp) 1024 =
        (0, some level_reply) ∧
      (handle_client L data resp "IMU orientation\n".toList fd b).writes = [level_reply] ∧
      level_reply ≠ spec_level_reply := by
  have he : execute_imu_command L data (some "orientation".toList) (some resp) 1024 =
      (0, some level_reply) := by
    have hs : strip_trailing "orientation".toList = "orientation".toList := by decide
    unfold execute_imu_command
    simp only [hs]
    rw [if_neg (by decide), if_neg (by decide), if_pos trivial,
      imu_orientation_level L data hr hp hy hf]
    have ht : snprintf resp 1024 level_reply = level_reply := by
      unfold snprintf
      rw [if_neg (by decide)]
      decide
    rw [ht]
  refine ⟨he, ?_, by decide⟩
  have hl : read_line "IMU orientation\n".toList = "IMU orientation".toList := by decide
  have hc : c_str "IMU orientation".toList = "IMU orientation".toList := by decide
  have hk : skip_spaces (List.drop 3 "IMU orientation".toList) = "orientation".toList := by
    decide
  unfold handle_client
  simp only [hl, hc]
  rw [if_pos (by decide), if_pos (by decide)]
  simp only [hk, he]
  have hz : c_str level_reply = level_reply := by decide
  simp [hz]

/-- Witness of C19's evaluation with the decimal reference libc and the
all-zero snapshot. -/
theorem execute_imu_command_level_reply_witness :
    execute_imu_command libc_dec imu_zero (some "orientation".toList) (some []) 1024 =
        (0, some level_reply) ∧
      level_reply ≠ spec_level_reply :=
  ⟨(execute_imu_command_level_reply libc_dec imu_zero [] 3 ⟨[], []⟩ rfl rfl rfl
      printf_f_dec_zero).1,
    (execute_imu_command_level_reply libc_dec imu_zero [] 3 ⟨[], []⟩ rfl rfl rfl
      printf_f_dec_zero).2.2⟩

/-! ## The claim on the register layout -/

theorem reg_writes_append (t1 t2 : List Event) :
    reg_writes (t1 ++ t2) = reg_writes t1 ++ reg_writes t2 := by
  induction t1 with
  | nil => rfl
  | cons e t ih => cases e <;> simp [reg_writes, ih]

theorem low_byte (n : Nat) : (n % 65536 &&& 0xFF) % 256 = n % 256 := by
  have h : (0xFF : Nat) = 2 ^ 8 - 1 := by norm_num
  rw [h, Nat.and_pow_two_sub_one_eq_mod]
  omega

theorem high_nibble (n : Nat) : ((n % 65536) >>> 8 &&& 0x0F) % 256 = n / 256 % 16 := by
  have h : (0x0F : Nat) = 2 ^ 4 - 1 := by norm_num
  rw [h, Nat.and_pow_two_sub_one_eq_mod, Nat.shiftRight_eq_div_pow]
  omega

theorem reg_address (c k : Nat) (hc : c ≤ 15) (hk : k ≤ 3) :
    ((0x06 + 4 * (c : Int) + (k : Int)) % 256).toNat = 6 + 4 * c + k := by
  omega

theorem write_register_ok (fd reg : Int) (v : Nat) (b : Bus)
    (h : b.pending.head? ≠ some false) :
    write_register fd reg v b =
      (0, { trace := b.trace ++ [Event.reg_write fd (reg % 256).toNat (v % 256)],
            pending := b.pending.tail }) := by
  unfold write_register
  rw [if_neg h]

theorem set_pwm_all_ok (fd ch : Int) (on_v off_v : Nat) (b : Bus)
    (hok : false ∉ b.pending.take 4) :
    set_pwm fd ch on_v off_v b =
      (0, { trace := b.trace ++
              [Event.set_pwm fd ch (on_v % 65536) (off_v % 65536),
                Event.reg_write fd ((0x06 + 4 * ch) % 256).toNat
                  ((on_v % 65536 &&& 0xFF) % 256),
                Event.reg_write fd ((0x06 + 4 * ch + 1) % 256).toNat
                  (((on_v % 65536) >>> 8 &&& 0x0F) % 256),
                Event.reg_write fd ((0x06 + 4 * ch + 2) % 256).toNat
                  ((off_v % 65536 &&& 0xFF) % 256),
                Event.reg_write fd ((0x06 + 4 * ch + 3) % 256).toNat
                  (((off_v % 65536) >>> 8 &&& 0x0F) % 256)],
            pending := b.pending.drop 4 }) := by
  obtain ⟨t, p⟩ := b
  unfold set_pwm write_register
  rcases p with _ | ⟨p1, _ | ⟨p2, _ | ⟨p3, _ | ⟨p4, rest⟩⟩⟩⟩ <;> simp_all

/-- C20: for a channel c in 0..15, when the four writes succeed, `set_pwm`
returns 0 and writes exactly four registers, 0x06+4c, 0x07+4c, 0x08+4c and
0x09+4c in this order, with the values on mod 256, (on div 256) mod 16,
off mod 256 and (off div 256) mod 16. For on, off ≤ 4095 the high values
are on div 256 and off div 256, so that low + 256 * high gives back on and
off; above 4095 the high value keeps bits 8..11 only. -/
theorem set_pwm_register_layout (fd : Int) (c on_v off_v : Nat) (b : Bus)
    (hc : c ≤ 15) (hok : false ∉ b.pending.take 4) :
    (set_pwm fd (c : Int) on_v off_v b).1 = 0 ∧
      reg_writes (set_pwm fd (c : Int) on_v off_v b).2.trace =
        reg_writes b.trace ++
          [(0x06 + 4 * c, on_v % 256), (0x07 + 4 * c, on_v / 256 % 16),
            (0x08 + 4 * c, off_v % 256), (0x09 + 4 * c, off_v / 256 % 16)] ∧
      (on_v ≤ 4095 → off_v ≤ 4095 →
        reg_writes (set_pwm fd (c : Int) on_v off_v b).2.trace =
          reg_writes b.trace ++
            [(0x06 + 4 * c, on_v % 256), (0x07 + 4 * c, on_v / 256),
              (0x08 + 4 * c, off_v % 256), (0x09 + 4 * c, off_v / 256)] ∧
          on_v % 256 + 256 * (on_v / 256) = on_v ∧
          off_v % 256 + 256 * (off_v / 256) = off_v) := by
  have h := set_pwm_all_ok fd (c : Int) on_v off_v b hok
  have a0 := reg_address c 0 hc (by norm_num)
  have a1 := reg_address c 1 hc (by norm_num)
  have a2 := reg_address c 2 hc (by norm_num)
  have a3 := reg_address c 3 hc (by norm_num)
  simp only [Nat.cast_zero, add_zero, Nat.cast_one, Nat.cast_ofNat] at a0 a1 a2 a3
  have hw : reg_writes (set_pwm fd (c : Int) on_v off_v b).2.trace =
      reg_writes b.trace ++
        [(0x06 + 4 * c, on_v % 256), (0x07 + 4 * c, on_v / 256 % 16),
          (0x08 + 4 * c, off_v % 256), (0x09 + 4 * c, off_v / 256 % 16)] := by
    rw [h]
    simp only [reg_writes_append, reg_writes, low_byte, high_nibble, a0, a1, a2, a3]
    simp
    omega
  refine ⟨by rw [h], hw, fun hon hoff => ⟨?_, by omega, by omega⟩⟩
  rw [hw]
  have e1 : on_v / 256 % 16 = on_v / 256 := by omega
  have e2 : off_v / 256 % 16 = off_v / 256 := by omega
  rw [e1, e2]

/-- Witness of C20: channel 3 with on = 0 and off = 2047 on a bus without
failures writes registers 0x12..0x15 with 0, 0, 255, 7. -/
theorem set_pwm_register_layout_witness :
    (set_pwm 3 3 0 2047 ⟨[], []⟩).1 = 0 ∧
      reg_writes (set_pwm 3 3 0 2047 ⟨[], []⟩).2.trace =
        [(18, 0), (19, 0), (20, 255), (21, 7)] := by
  have h := set_pwm_register_layout 3 3 0 2047 ⟨[], []⟩ (by norm_num) (by simp)
  exact ⟨h.1, by simpa [reg_writes] using (h.2.2 (by norm_num) (by norm_num)).1⟩

/-! ## The claim on the registers reached by a command -/

theorem reg_writes_write_register (fd reg : Int) (v : Nat) (b : Bus) :
    reg_writes (write_register fd reg v b).2.trace =
      reg_writes b.trace ++ [((reg % 256).toNat, v % 256)] := by
  rw [write_register_bus]
  simp [reg_writes_append, reg_writes]

theorem reg_writes_sleep (d : Int) (b : Bus) :
    reg_writes (sleep d b).trace = reg_writes b.trace := by
  simp [sleep, reg_writes_append, reg_writes]

theorem duty_register_range (ch k : Int) (h0 : 0 ≤ ch) (h15 : ch ≤ 15) (hk0 : 0 ≤ k)
    (hk3 : k ≤ 3) :
    0x06 ≤ ((0x06 + 4 * ch + k) % 256).toNat ∧ ((0x06 + 4 * ch + k) % 256).toNat ≤ 0x45 := by
  omega

theorem set_pwm_writes_in_range (fd ch : Int) (on_v off_v : Nat) (b : Bus)
    (h0 : 0 ≤ ch) (h15 : ch ≤ 15) :
    ∃ ws, reg_writes (set_pwm fd ch on_v off_v b).2.trace = reg_writes b.trace ++ ws ∧
      ∀ w ∈ ws, 0x06 ≤ w.1 ∧ w.1 ≤ 0x45 := by
  have r0 := duty_register_range ch 0 h0 h15 (by norm_num) (by norm_num)
  have r1 := duty_register_range ch 1 h0 h15 (by norm_num) (by norm_num)
  have r2 := duty_register_range ch 2 h0 h15 (by norm_num) (by norm_num)
  have r3 := duty_register_range ch 3 h0 h15 (by norm_num) (by norm_num)
  simp only [add_zero] at r0
  unfold set_pwm
  simp only []
  generalize ((6 + 4 * ch) % 256).toNat = x0 at r0 ⊢
  generalize ((6 + 4 * ch + 1) % 256).toNat = x1 at r1 ⊢
  generalize ((6 + 4 * ch + 2) % 256).toNat = x2 at r2 ⊢
  generalize ((6 + 4 * ch + 3) % 256).toNat = x3 at r3 ⊢
  split_ifs
  all_goals
    simp only [reg_writes_write_register, reg_writes_append, reg_writes, List.append_nil,
      List.append_assoc]
    refine ⟨_, rfl, ?_⟩
    rintro ⟨r, v⟩ hw
    simp only [List.mem_append, List.mem_singleton, List.mem_cons, List.not_mem_nil,
      or_false, Prod.mk.injEq] at hw
    simp only []
    omega

theorem writes_in_range_trans (t0 t1 t2 : List Event)
    (h1 : ∃ ws, reg_writes t1 = reg_writes t0 ++ ws ∧ ∀ w ∈ ws, 0x06 ≤ w.1 ∧ w.1 ≤ 0x45)
    (h2 : ∃ ws, reg_writes t2 = reg_writes t1 ++ ws ∧ ∀ w ∈ ws, 0x06 ≤ w.1 ∧ w.1 ≤ 0x45) :
    ∃ ws, reg_writes t2 = reg_writes t0 ++ ws ∧ ∀ w ∈ ws, 0x06 ≤ w.1 ∧ w.1 ≤ 0x45 := by
  obtain ⟨ws1, e1, p1⟩ := h1
  obtain ⟨ws2, e2, p2⟩ := h2
  refine ⟨ws1 ++ ws2, by rw [e2, e1, List.append_assoc], ?_⟩
  intro w hw
  rcases List.mem_append.mp hw with h | h
  · exact p1 w h
  · exact p2 w h

theorem sleep_writes_in_range (d : Int) (b : Bus) :
    ∃ ws, reg_writes (sleep d b).trace = reg_writes b.trace ++ ws ∧
      ∀ w ∈ ws, 0x06 ≤ w.1 ∧ w.1 ≤ 0x45 :=
  ⟨[], by rw [reg_writes_sleep, List.append_nil], by simp⟩

theorem execute_pwm_command_accepted (L : Libc) (fd : Int) (cmd : CString) (b : Bus)
    (hacc : (execute_pwm_command L fd cmd b).1 = 0) :
    (strtok_all cmd).take 10 ≠ [] ∧
      ∃ a, parse_args L ((strtok_all cmd).take 10) {} = some a ∧ pwm_invalid a = false := by
  by_cases hne : (strtok_all cmd).take 10 = []
  · rw [execute_pwm_command_no_tokens L fd cmd b hne] at hacc
    simp at hacc
  · refine ⟨hne, ?_⟩
    cases hp : parse_args L ((strtok_all cmd).take 10) {} with
    | none =>
      rw [execute_pwm_command_parse_none L fd cmd b hp] at hacc
      simp at hacc
    | some a =>
      cases hok : pwm_invalid a with
      | true =>
        rw [execute_pwm_command_invalid L fd cmd b a hp hok] at hacc
        simp at hacc
      | false => exact ⟨a, rfl, hok⟩

theorem execute_pwm_command_writes_in_range (L : Libc) (fd : Int) (cmd : CString)
    (b : Bus) (a : PwmArgs) (hne : (strtok_all cmd).take 10 ≠ [])
    (hp : parse_args L ((strtok_all cmd).take 10) {} = some a)
    (hok : pwm_invalid a = false) (h0 : 0 ≤ a.channel) (h15 : a.channel ≤ 15) :
    ∃ ws, reg_writes (execute_pwm_command L fd cmd b).2.trace = reg_writes b.trace ++ ws ∧
      ∀ w ∈ ws, 0x06 ≤ w.1 ∧ w.1 ≤ 0x45 := by
  unfold execute_pwm_command
  simp only [hp, hok, hne, if_false, Bool.false_eq_true]
  split_ifs
  · exact writes_in_range_trans _ _ _
      (writes_in_range_trans _ _ _
        (writes_in_range_trans _ _ _
          (writes_in_range_trans _ _ _
            (set_pwm_writes_in_range fd 0 _ _ b (by norm_num) (by norm_num))
            (set_pwm_writes_in_range fd 1 _ _ _ (by norm_num) (by norm_num)))
          (sleep_writes_in_range _ _))
        (set_pwm_writes_in_range fd 0 _ _ _ (by norm_num) (by norm_num)))
      (set_pwm_writes_in_range fd 1 _ _ _ (by norm_num) (by norm_num))
  · exact writes_in_range_trans _ _ _
      (set_pwm_writes_in_range fd 0 _ _ b (by norm_num) (by norm_num))
      (set_pwm_writes_in_range fd 1 _ _ _ (by norm_num) (by norm_num))
  · exact writes_in_range_trans _ _ _
      (writes_in_range_trans _ _ _
        (set_pwm_writes_in_range fd a.channel _ _ b h0 h15)
        (sleep_writes_in_range _ _))
      (set_pwm_writes_in_range fd a.channel _ _ _ h0 h15)
  · exact set_pwm_writes_in_range fd a.channel _ _ b h0 h15

theorem apply_flags_channel_range (L : Libc) (fs : List FlagArg) (a : PwmArgs)
    (hfs : ∀ v, FlagArg.c v ∈ fs → 0 ≤ L.atoi v ∧ L.atoi v ≤ 15)
    (ha : 0 ≤ a.channel ∧ a.channel ≤ 15) :
    0 ≤ (apply_flags L fs a).channel ∧ (apply_flags L fs a).channel ≤ 15 := by
  induction fs generalizing a with
  | nil => exact ha
  | cons f fs ih =>
    have hrest : ∀ v, FlagArg.c v ∈ fs → 0 ≤ L.atoi v ∧ L.atoi v ≤ 15 :=
      fun v hv => hfs v (List.mem_cons_of_mem f hv)
    cases f with
    | t v => exact ih _ hrest ha
    | c v => exact ih _ hrest (hfs v (List.mem_cons_self _ fs))

theorem duty_args_channel (L : Libc) (d1 : CString) (rest : List CString) (a : PwmArgs) :
    (duty_args L d1 rest a).channel = a.channel := by
  unfold duty_args
  cases rest with
  | nil => rfl
  | cons nxt r => simp only []; split_ifs <;> rfl

theorem execute_pwm_command_one_channel (cmd v : CString) (k : Int) (b : Bus)
    (htok : (strtok_all cmd).take 10 = [['-', 'c'], v, "50".toList])
    (hk : libc_dec.atoi v = k) :
    execute_pwm_command libc_dec 3 cmd b = (0, (set_pwm 3 k 0 2047 b).2) := by
  have h50 : libc_dec.atof "50".toList = 50 := by
    simp [libc_dec, atof_dec, atof_unsigned, read_digits, digit_val]
  have hp : parse_args libc_dec ((strtok_all cmd).take 10) {} =
      some { channel := k, custom_channel := true, pwm1 := 50 } := by
    have := parse_args_shape libc_dec [FlagArg.c v] "50".toList [] {} (by decide) (by decide)
    rw [htok]
    simpa [flag_tokens, FlagArg.tokens, duty_args, apply_flags, FlagArg.apply, h50, hk]
      using this
  have hne : (strtok_all cmd).take 10 ≠ [] := by rw [htok]; simp
  have h := execute_pwm_command_single libc_dec 3 cmd b _ hne hp
    (by simp [pwm_invalid]; norm_num) rfl (by simp)
  rw [h]
  simp only [duty_count_50]

/-- C21 fails: the channel is not checked. The command "-c 62 50" is
accepted and writes the registers 0xFE (prescale), 0xFF, 0x00 (mode) and
0x01, the address 0x06 + 4 * 62 wrapping around 256; the command
"-c 61 50" is accepted and writes the all-channel registers 0xFA..0xFD.
None of these addresses is in 0x06..0x45. -/
theorem execute_pwm_command_channel_unchecked :
    execute_pwm_command libc_dec 3 "-c 62 50".toList ⟨[], []⟩ =
        (0, ⟨[Event.set_pwm 3 62 0 2047, Event.reg_write 3 0xFE 0, Event.reg_write 3 0xFF 0,
          Event.reg_write 3 0x00 255, Event.reg_write 3 0x01 7], []⟩) ∧
      reg_writes (execute_pwm_command libc_dec 3 "-c 62 50".toList ⟨[], []⟩).2.trace =
        [(0xFE, 0), (0xFF, 0), (0x00, 255), (0x01, 7)] ∧
      (execute_pwm_command libc_dec 3 "-c 61 50".toList ⟨[], []⟩).1 = 0 ∧
      reg_writes (execute_pwm_command libc_dec 3 "-c 61 50".toList ⟨[], []⟩).2.trace =
        [(0xFA, 0), (0xFB, 0), (0xFC, 255), (0xFD, 7)] ∧
      ¬ (0x06 ≤ 0xFE ∧ 0xFE ≤ 0x45) := by
  have e62 := execute_pwm_command_one_channel "-c 62 50".toList "62".toList 62 ⟨[], []⟩
    (by decide) (by simp [libc_dec, atoi_dec, read_digits, digit_val])
  have e61 := execute_pwm_command_one_channel "-c 61 50".toList "61".toList 61 ⟨[], []⟩
    (by decide) (by simp [libc_dec, atoi_dec, read_digits, digit_val])
  have s62 : (set_pwm 3 62 0 2047 ⟨[], []⟩).2 =
      ⟨[Event.set_pwm 3 62 0 2047, Event.reg_write 3 0xFE 0, Event.reg_write 3 0xFF 0,
        Event.reg_write 3 0x00 255, Event.reg_write 3 0x01 7], []⟩ := by decide
  have s61 : (set_pwm 3 61 0 2047 ⟨[], []⟩).2 =
      ⟨[Event.set_pwm 3 61 0 2047, Event.reg_write 3 0xFA 0, Event.reg_write 3 0xFB 0,
        Event.reg_write 3 0xFC 255, Event.reg_write 3 0xFD 7], []⟩ := by decide
  refine ⟨by rw [e62, s62], ?_, by rw [e61], ?_, by norm_num⟩
  · rw [e62, s62]; rfl
  · rw [e61, s61]; rfl

/-- C21 as amended: for every command that `execute_pwm_command` accepts
and whose channel lies in 0..15, every register write it causes, whether
it succeeds or not, has its address in 0x06..0x45. The channel is the value
of `channel` after the argument loop: 0, or the argument of the last "-c"
flag read; it is in 0..15 when every "-c" argument of the command is. The
code does not check the channel, so nothing is said for other arguments. -/
theorem execute_pwm_command_registers_in_range (L : Libc) (fd : Int) (cmd : CString)
    (b : Bus) (hacc : (execute_pwm_command L fd cmd b).1 = 0) :
    (∀ a, parse_args L ((strtok_all cmd).take 10) {} = some a →
      0 ≤ a.channel → a.channel ≤ 15 →
      ∃ ws, reg_writes (execute_pwm_command L fd cmd b).2.trace =
          reg_writes b.trace ++ ws ∧ ∀ w ∈ ws, 0x06 ≤ w.1 ∧ w.1 ≤ 0x45) ∧
    (∀ (fs : List FlagArg) (ts : List CString),
      (strtok_all cmd).take 10 = flag_tokens fs ++ ts →
      (ts = [] ∨ ∃ d1 rest, ts = d1 :: rest ∧ d1 ≠ ['-', 't'] ∧ d1 ≠ ['-', 'c']) →
      (∀ v, FlagArg.c v ∈ fs → 0 ≤ L.atoi v ∧ L.atoi v ≤ 15) →
      ∃ ws, reg_writes (execute_pwm_command L fd cmd b).2.trace =
          reg_writes b.trace ++ ws ∧ ∀ w ∈ ws, 0x06 ≤ w.1 ∧ w.1 ≤ 0x45) := by
  obtain ⟨hne, a0, hp0, hok0⟩ := execute_pwm_command_accepted L fd cmd b hacc
  have first : ∀ a, parse_args L ((strtok_all cmd).take 10) {} = some a →
      0 ≤ a.channel → a.channel ≤ 15 →
      ∃ ws, reg_writes (execute_pwm_command L fd cmd b).2.trace =
          reg_writes b.trace ++ ws ∧ ∀ w ∈ ws, 0x06 ≤ w.1 ∧ w.1 ≤ 0x45 := by
    intro a hp h0 h15
    have ha : a = a0 := Option.some.inj (hp.symm.trans hp0)
    subst ha
    exact execute_pwm_command_writes_in_range L fd cmd b a hne hp hok0 h0 h15
  refine ⟨first, ?_⟩
  intro fs ts hshape hts hfs
  have hr := apply_flags_channel_range L fs {} hfs ⟨le_refl _, by norm_num⟩
  rcases hts with h | ⟨d1, rest, h, ht, hc⟩
  · subst h
    have hp : parse_args L ((strtok_all cmd).take 10) {} = some (apply_flags L fs {}) := by
      rw [hshape, parse_args_flags]; rfl
    exact first _ hp hr.1 hr.2
  · subst h
    have hp : parse_args L ((strtok_all cmd).take 10) {} =
        some (duty_args L d1 rest (apply_flags L fs {})) := by
      rw [hshape]; exact parse_args_shape L fs d1 rest {} ht hc
    exact first _ hp (by rw [duty_args_channel]; exact hr.1)
      (by rw [duty_args_channel]; exact hr.2)

/-- Witness of the amended C21: "-c 15 50" is accepted and writes the
registers 0x42..0x45, the duty registers of channel 15. -/
theorem execute_pwm_command_registers_in_range_witness :
    (execute_pwm_command libc_dec 3 "-c 15 50".toList ⟨[], []⟩).1 = 0 ∧
      reg_writes (execute_pwm_command libc_dec 3 "-c 15 50".toList ⟨[], []⟩).2.trace =
        [(0x42, 0), (0x43, 0), (0x44, 255), (0x45, 7)] ∧
      ∃ ws, reg_writes (execute_pwm_command libc_dec 3 "-c 15 50".toList ⟨[], []⟩).2.trace =
          reg_writes (⟨[], []⟩ : Bus).trace ++ ws ∧ ∀ w ∈ ws, 0x06 ≤ w.1 ∧ w.1 ≤ 0x45 := by
  have h15 : libc_dec.atoi "15".toList = 15 := by
    simp [libc_dec, atoi_dec, read_digits, digit_val]
  have e := execute_pwm_command_one_channel "-c 15 50".toList "15".toList 15 ⟨[], []⟩
    (by decide) h15
  have s15 : (set_pwm 3 15 0 2047 ⟨[], []⟩).2 =
      ⟨[Event.set_pwm 3 15 0 2047, Event.reg_write 3 0x42 0, Event.reg_write 3 0x43 0,
        Event.reg_write 3 0x44 255, Event.reg_write 3 0x45 7], []⟩ := by decide
  have hacc : (execute_pwm_command libc_dec 3 "-c 15 50".toList ⟨[], []⟩).1 = 0 := by
    rw [e]
  refine ⟨hacc, by rw [e, s15]; rfl, ?_⟩
  refine (execute_pwm_command_registers_in_range libc_dec 3 "-c 15 50".toList ⟨[], []⟩
    hacc).2 [FlagArg.c "15".toList] ["50".toList] (by decide)
    (Or.inr ⟨"50".toList, [], rfl, by decide, by decide⟩) ?_
  intro v hv
  have hv2 : v = "15".toList := by simpa using hv
  rw [hv2, h15]
  norm_num

/-! ## Commands whose duty value or flag is not read -/

theorem strip_loop_eq_dropWhile (r : List Char) (h : ∃ c ∈ r, is_trailing_ws c = false) :
    strip_loop r = r.dropWhile is_trailing_ws := by
  induction r with
  | nil => rfl
  | cons c rest ih =>
    by_cases hc : is_trailing_ws c = true
    · have hrest : ∃ x ∈ rest, is_trailing_ws x = false := by
        obtain ⟨x, hx, hxw⟩ := h
        rcases List.mem_cons.mp hx with e | e
        · subst e; rw [hc] at hxw; cases hxw
        · exact ⟨x, e, hxw⟩
      have hne : rest ≠ [] := by
        obtain ⟨x, hx, _⟩ := hrest
        exact List.ne_nil_of_mem hx
      rw [strip_loop, if_pos ⟨hne, hc⟩, ih hrest, List.dropWhile_cons, if_pos hc]
    · have hc2 : ¬ (rest ≠ [] ∧ is_trailing_ws c = true) := fun hh => hc hh.2
      rw [strip_loop, if_neg hc2, List.dropWhile_cons, if_neg hc]

theorem strip_trailing_eq_spec (cmd : CString)
    (h : cmd = [] ∨ ∃ c ∈ cmd, is_trailing_ws c = false) :
    strip_trailing cmd = spec_strip_trailing cmd := by
  unfold strip_trailing spec_strip_trailing
  rcases h with h | ⟨c, hc, hw⟩
  · subst h; rfl
  · rw [strip_loop_eq_dropWhile cmd.reverse ⟨c, List.mem_reverse.mpr hc, hw⟩]

theorem printf_f_dec_zero3 : libc_dec.printf_f 3 0 = "0.000".toList := by
  simp [libc_dec, printf_f_dec, round_half_even, Rat.floor]; decide

theorem imu_report_zero : imu_report libc_dec imu_zero = zero_report := by
  unfold imu_report imu_zero
  simp only []
  rw [printf_f_dec_zero3, printf_f_dec_zero]
  decide

theorem imu_raw_zero : imu_raw libc_dec imu_zero = zero_raw := by
  unfold imu_raw imu_zero
  simp only []
  rw [printf_f_dec_zero3, printf_f_dec_zero]
  decide

/-- C8 on whitespace-only sub-commands, and where it holds. On the
sub-command " " the text stripped of its trailing whitespace is empty,
which is a known sub-command, but `execute_imu_command` returns -1 with the
unknown-command line, the stripping loop never removing the first
character. For every sub-command that is empty or holds a character other
than blank, tab and newline the claim holds on the stripped text: the
result is 0 exactly for "read", "get", the empty text, "raw" and
"orientation"; "read", "get" and the empty text give the same report,
"raw" the raw reply, "orientation" the angles; any other text gives -1 and
the line "ERROR: Unknown IMU command '<cmd>'\n" when the buffer has room
for it. With the decimal libc the replies for the all-zero snapshot are
the texts `zero_report` ("read"), `zero_raw` ("raw") and `level_reply`
("orientation"). -/
theorem execute_imu_command_spec_strip (L : Libc) (data : imu_data_t) (resp : CString) :
    (spec_strip_trailing [' '] = [] ∧ ([] : CString) ∈ imu_known ∧
      execute_imu_command L data (some [' ']) (some resp) 1024 =
        (-1, some "ERROR: Unknown IMU command ' '\n".toList)) ∧
    (∀ (cmd : CString) (size : Nat), (cmd = [] ∨ ∃ c ∈ cmd, is_trailing_ws c = false) →
      ((execute_imu_command L data (some cmd) (some resp) size).1 = 0 ↔
          spec_strip_trailing cmd ∈ imu_known) ∧
        (spec_strip_trailing cmd ∈ ["read".toList, "get".toList, "".toList] →
          execute_imu_command L data (some cmd) (some resp) size =
            (0, some (snprintf resp size (imu_report L data)))) ∧
        (spec_strip_trailing cmd = "raw".toList →
          execute_imu_command L data (some cmd) (some resp) size =
            (0, some (snprintf resp size (imu_raw L data)))) ∧
        (spec_strip_trailing cmd = "orientation".toList →
          execute_imu_command L data (some cmd) (some resp) size =
            (0, some (snprintf resp size (imu_orientation L data)))) ∧
        (spec_strip_trailing cmd ∉ imu_known →
          (imu_unknown (spec_strip_trailing cmd)).length < size →
          execute_imu_command L data (some cmd) (some resp) size =
            (-1, some ("ERROR: Unknown IMU command '".toList ++ spec_strip_trailing cmd ++
              "'\n".toList)))) ∧
    (execute_imu_command libc_dec imu_zero (some "read".toList) (some []) 1024 =
        (0, some zero_report) ∧
      execute_imu_command libc_dec imu_zero (some "raw".toList) (some []) 1024 =
        (0, some zero_raw) ∧
      execute_imu_command libc_dec imu_zero (some "orientation".toList) (some []) 1024 =
        (0, some level_reply)) := by
  have raw_of : ∀ (cmd : CString) (size : Nat), strip_trailing cmd = "raw".toList →
      execute_imu_command L data (some cmd) (some resp) size =
        (0, some (snprintf resp size (imu_raw L data))) := by
    intro cmd size h
    unfold execute_imu_command
    simp only [h]
    rw [if_neg (by decide), if_pos (by decide)]
  have ori_of : ∀ (cmd : CString) (size : Nat), strip_trailing cmd = "orientation".toList →
      execute_imu_command L data (some cmd) (some resp) size =
        (0, some (snprintf resp size (imu_orientation L data))) := by
    intro cmd size h
    unfold execute_imu_command
    simp only [h]
    rw [if_neg (by decide), if_neg (by decide), if_pos (by decide)]
  refine ⟨⟨by decide, by decide, ?_⟩, ?_, ?_, ?_, ?_⟩
  · exact execute_imu_command_unknown_line L data [' '] resp 1024 (by decide) (by decide)
  · intro cmd size hcmd
    have he := strip_trailing_eq_spec cmd hcmd
    rw [← he]
    refine ⟨⟨?_, execute_imu_command_known L data cmd resp size⟩,
      execute_imu_command_report L data cmd resp size, raw_of cmd size, ori_of cmd size,
      execute_imu_command_unknown_line L data cmd resp size⟩
    intro h0
    by_contra hn
    rw [execute_imu_command_unknown L data cmd resp size hn] at h0
    simp at h0
  · rw [execute_imu_command_report libc_dec imu_zero "read".toList [] 1024 (by decide),
      imu_report_zero]
    have ht : snprintf [] 1024 zero_report = zero_report := by
      unfold snprintf
      rw [if_neg (by decide)]
      decide
    rw [ht]
  · have hs : strip_trailing "raw".toList = "raw".toList := by decide
    have ht : snprintf [] 1024 zero_raw = zero_raw := by
      unfold snprintf
      rw [if_neg (by decide)]
      decide
    unfold execute_imu_command
    simp only [hs]
    rw [if_neg (by decide), if_pos (by decide), imu_raw_zero, ht]
  · have hs : strip_trailing "orientation".toList = "orientation".toList := by decide
    have ht : snprintf [] 1024 level_reply = level_reply := by
      unfold snprintf
      rw [if_neg (by decide)]
      decide
    unfold execute_imu_command
    simp only [hs]
    rw [if_neg (by decide), if_neg (by decide), if_pos (by decide),
      imu_orientation_level libc_dec imu_zero rfl rfl rfl printf_f_dec_zero, ht]

/-- Witness of the part of C8 that holds: "get" followed by a newline gives
the report, and "status" the unknown-command line. -/
theorem execute_imu_command_spec_strip_witness :
    spec_strip_trailing "get\n".toList = "get".toList ∧
      execute_imu_command libc_dec imu_zero (some "get\n".toList) (some []) 1024 =
        (0, some (snprintf [] 1024 (imu_report libc_dec imu_zero))) ∧
      execute_imu_command libc_dec imu_zero (some "status".toList) (some []) 1024 =
        (-1, some ("ERROR: Unknown IMU command '".toList ++
          spec_strip_trailing "status".toList ++ "'\n".toList)) :=
  ⟨by decide,
    ((execute_imu_command_spec_strip libc_dec imu_zero []).2.1 "get\n".toList 1024
      (Or.inr ⟨'g', by decide, by decide⟩)).2.1 (by decide),
    ((execute_imu_command_spec_strip libc_dec imu_zero []).2.1 "status".toList 1024
      (Or.inr ⟨'s', by decide, by decide⟩)).2.2.2.2 (by decide) (by decide)⟩

end Vehicule
